import Mathlib

/-! # registrator: the bridge between container events and the service registry

A shallow embedding of `bridge.go`: `serviceMetaData`, `NewService`, and the
`RegistryBridge` operations `Add` and `Remove`, followed by theorems about them.

Conventions of the embedding.

* A Go `string` is a `List Char` (`Str`).  All separators the program uses
  (`=`, `_`, `/`, `:`, `,`) are single ASCII characters.
* A Go `map[string]T` is a function `Str → Option T` (`GoMap T`); two maps are the
  same mapping exactly when the functions are equal.
* A runtime panic (index or slice out of range) is an explicit outcome.  Log output is
  not part of the model; the slices `[:12]` inside the log calls are, since they can panic.
* The operating system, the Docker client and the registry are parameters.
-/

namespace Registrator

/-- Go strings, as sequences of characters. -/
abbrev Str := List Char

/-! ## Go maps -/

/-- A Go `map[string]β`: a partial function on strings. -/
abbrev GoMap (β : Type) := Str → Option β

/-- The empty map, `make(map[string]β)`. -/
def GoMap.empty {β : Type} : GoMap β := fun _ => none

/-- Assignment `m[k] = v`. -/
def GoMap.set {β : Type} (m : GoMap β) (k : Str) (v : β) : GoMap β :=
  fun x => if x = k then some v else m x

/-- Deletion `delete(m, k)`; a no-op when `k` is not a key. -/
def GoMap.delete {β : Type} (m : GoMap β) (k : Str) : GoMap β :=
  fun x => if x = k then none else m x

/-! ## The parts of the Go standard library the program calls -/

/-- `strings.SplitN(s, sep, 2)` for a one-character separator: `[s]` when `sep` does not
occur in `s`, otherwise the text before the first `sep` and the text after it. -/
def SplitN2 (sep : Char) (s : Str) : List Str :=
  match s.dropWhile (fun c => c != sep) with
  | [] => [s]
  | _ :: rest => [s.takeWhile (fun c => c != sep), rest]

/-- `strings.Split(s, sep)` for a one-character separator: all the pieces of `s` between
occurrences of `sep`, in order (always at least one piece). -/
def Split (sep : Char) : Str → List Str
  | [] => [[]]
  | c :: cs =>
    if c = sep then [] :: Split sep cs
    else
      match Split sep cs with
      | [] => [[c]]
      | piece :: pieces => (c :: piece) :: pieces

/-- `strings.HasPrefix(s, pre)`. -/
def HasPrefix (s pre : Str) : Bool := pre.isPrefixOf s

/-- `strings.TrimPrefix(s, pre)`. -/
def TrimPrefix (s pre : Str) : Str :=
  if HasPrefix s pre then s.drop pre.length else s

/-- Lower-casing of one character.  Go lower-cases every Unicode letter; the embedding
lower-cases the ASCII letters `A`–`Z` and leaves every other character unchanged. -/
def toLowerRune (c : Char) : Char :=
  if 65 ≤ c.toNat ∧ c.toNat ≤ 90 then Char.ofNat (c.toNat + 32) else c

/-- `strings.ToLower`. -/
def ToLower (s : Str) : Str := s.map toLowerRune

/-- The two errors of `strconv`: `ErrSyntax` (`malformed`) and `ErrRange` (`outOfRange`). -/
inductive NumError where
  | malformed
  | outOfRange
  deriving DecidableEq, Repr

/-- The digit loop of `strconv.ParseUint(s, 10, 64)`: accumulates decimal digits, fails with
`malformed` on any other character and with `outOfRange` (value `2^64 - 1`) on overflow. -/
def parseUintLoop : Str → Nat → Nat × Option NumError
  | [], n => (n, none)
  | c :: cs, n =>
    if 48 ≤ c.toNat ∧ c.toNat ≤ 57 then
      if n ≥ (2 ^ 64 - 1) / 10 + 1 then (2 ^ 64 - 1, some NumError.outOfRange)
      else
        let n1 := n * 10 + (c.toNat - 48)
        if n1 > 2 ^ 64 - 1 then (2 ^ 64 - 1, some NumError.outOfRange)
        else parseUintLoop cs n1
    else (0, some NumError.malformed)

/-- `strconv.ParseUint(s, 10, 64)`. -/
def ParseUint (s : Str) : Nat × Option NumError :=
  match s with
  | [] => (0, some NumError.malformed)
  | _ :: _ => parseUintLoop s 0

/-- `strconv.Atoi(s)` on a 64-bit platform (`ParseInt(s, 10, 0)`): an optional sign, then
decimal digits.  Returns the value together with the error; on a range error the value is
the nearest representable integer, on a malformed input it is `0`. -/
def Atoi (s : Str) : Int × Option NumError :=
  match s with
  | [] => (0, some NumError.malformed)
  | c :: cs =>
    let neg : Bool := c = '-'
    let digits : Str := if c = '+' ∨ c = '-' then cs else s
    match ParseUint digits with
    | (_, some NumError.malformed) => (0, some NumError.malformed)
    | (un, _) =>
      if neg = false ∧ un ≥ 2 ^ 63 then ((2 : Int) ^ 63 - 1, some NumError.outOfRange)
      else if neg = true ∧ un > 2 ^ 63 then (-(2 : Int) ^ 63, some NumError.outOfRange)
      else (if neg then -(un : Int) else (un : Int), none)

/-- Drops the trailing slashes of a path (first loop of `path.Base`). -/
def stripTrailingSlashes (s : Str) : Str :=
  (s.reverse.dropWhile (fun c => c == '/')).reverse

/-- The text after the last `/` of a path, or the whole path when it has none. -/
def afterLastSlash (s : Str) : Str :=
  (s.reverse.takeWhile (fun c => c != '/')).reverse

/-- `path.Base(p)`: the last element of a path. -/
def Base (p : Str) : Str :=
  if p = [] then ['.']
  else
    let q := afterLastSlash (stripTrailingSlashes p)
    if q = [] then ['/'] else q

/-! ## Metadata -/

/-- The reserved prefix `"SERVICE_"`. -/
def servicePrefix : Str := ['S', 'E', 'R', 'V', 'I', 'C', 'E', '_']

/-- Modelled from the spec: `mapdefault` is declared in a file of the repository that is not
part of the sources at hand; per the spec a metadata value is used "if present, else the
default". -/
def mapdefault (m : GoMap Str) (key : Str) (default_ : Str) : Str :=
  match m key with
  | some v => v
  | none => default_

/-- One iteration of the loop of `serviceMetaData`: the effect of the variable `kv` on the
mapping built so far. -/
def metaDataStep (port : Str) (metadata : GoMap Str) (kv : Str) : GoMap Str :=
  let kvp := SplitN2 '=' kv
  if HasPrefix (kvp.headD []) servicePrefix = true ∧ kvp.length > 1 then
    let key := ToLower (TrimPrefix (kvp.headD []) servicePrefix)
    let portkey := SplitN2 '_' key
    if (Atoi (portkey.headD [])).2 = none ∧ portkey.length > 1 then
      if portkey.headD [] ≠ port then metadata
      else metadata.set (portkey.getD 1 []) (kvp.getD 1 [])
    else metadata.set key (kvp.getD 1 [])
  else metadata

/-- `serviceMetaData(env, port)`: the variables are processed in list order. -/
def serviceMetaData (env : List Str) (port : Str) : GoMap Str :=
  env.foldl (metaDataStep port) GoMap.empty

/-! ## The data model -/

/-- A host binding of a port, `dockerapi.PortBinding`. -/
structure PortBinding where
  HostIp : Str
  HostPort : Str
  deriving DecidableEq

/-- The fields of `dockerapi.Config` the program reads. -/
structure Config where
  Image : Str
  Env : List Str
  deriving DecidableEq

/-- The fields of `dockerapi.NetworkSettings` the program reads.  `Ports` is the map from
`"port/proto"` keys to host bindings, listed in the order in which the `range` loop of `Add`
visits it (Go leaves that order unspecified, so every order is a possible input). -/
structure NetworkSettings where
  IPAddress : Str
  Ports : List (Str × List PortBinding)
  deriving DecidableEq

/-- A container snapshot, `dockerapi.Container`, as returned by `InspectContainer`. -/
structure Container where
  ID : Str
  Name : Str
  Config : Config
  NetworkSettings : NetworkSettings
  deriving DecidableEq

/-- A port candidate, `PublishedPort`. -/
structure PublishedPort where
  HostPort : Str
  HostIP : Str
  ExposedPort : Str
  PortType : Str
  Container : Container
  deriving DecidableEq

/-- A service record, `Service`. -/
structure Service where
  ID : Str
  Name : Str
  Port : Int
  IP : Str
  Tags : List Str
  Attrs : GoMap Str
  pp : PublishedPort

/-- The operating-system calls of `NewService`: `os.Hostname()` (`none` when it returns an
error) and `net.ResolveIPAddr("ip", name)` followed by `String()` (`none` on error). -/
structure Host where
  Hostname : Option Str
  ResolveIPAddr : Str → Option Str

/-- The command-line flags, declared in another file of the repository: the override address
`*hostIp` and the two policy flags. -/
structure Flags where
  hostIp : Str
  registerInternalAddress : Bool
  registerExposedPorts : Bool

/-- A Go runtime panic. -/
inductive Panic where
  | indexOutOfRange
  | sliceOutOfRange
  deriving DecidableEq, Repr

/-! ## NewService -/

/-- The default service name: the base name of the image up to the first `:`, followed by
`-<exposed port>` when `isgroup` is set. -/
def defaultName (port : PublishedPort) (isgroup : Bool) : Str :=
  let name := (Split ':' (Base port.Container.Config.Image)).headD []
  if isgroup then name ++ ['-'] ++ port.ExposedPort else name

/-- The `hostname` variable of `NewService`: the local host name, or the candidate's host IP
when the lookup fails. -/
def resolvedHostname (h : Host) (port : PublishedPort) : Str :=
  match h.Hostname with
  | none => port.HostIP
  | some name => name

/-- The value of `port.HostIP` after the address resolution and the override of
`NewService`. -/
def resolvedHostIP (h : Host) (f : Flags) (port : PublishedPort) : Str :=
  let ip :=
    match h.Hostname with
    | none => port.HostIP
    | some name =>
      if port.HostIP = ['0', '.', '0', '.', '0', '.', '0'] then
        match h.ResolveIPAddr name with
        | some addr => addr
        | none => port.HostIP
      else port.HostIP
  if f.hostIp ≠ [] then f.hostIp else ip

/-- `NewService(port, isgroup)`: `ok none` is the `nil` result (the service is suppressed),
`error` a runtime panic. -/
def NewService (h : Host) (f : Flags) (port : PublishedPort) (isgroup : Bool) :
    Except Panic (Option Service) :=
  let container := port.Container
  let dflt := defaultName port isgroup
  let hostname := resolvedHostname h port
  let port : PublishedPort := { port with HostIP := resolvedHostIP h f port }
  let metadata := serviceMetaData container.Config.Env port.ExposedPort
  let ignore := mapdefault metadata ['i', 'g', 'n', 'o', 'r', 'e'] []
  if ignore ≠ [] then Except.ok none
  else if container.Name.length < 1 then Except.error Panic.sliceOutOfRange
  else
    let id0 := hostname ++ [':'] ++ container.Name.drop 1 ++ [':'] ++ port.ExposedPort
    let tags := mapdefault metadata ['t', 'a', 'g', 's'] []
    let tags0 : List Str := if tags ≠ [] then Split ',' tags else []
    let isUdp : Bool := port.PortType = ['u', 'd', 'p']
    let tags1 := if isUdp then tags0 ++ [['u', 'd', 'p']] else tags0
    let id1 := if isUdp then id0 ++ [':', 'u', 'd', 'p'] else id0
    let id := mapdefault metadata ['i', 'd'] []
    Except.ok (some
      { ID := if id ≠ [] then id else id1
        Name := mapdefault metadata ['n', 'a', 'm', 'e'] dflt
        Port := (Atoi port.HostPort).1
        IP := port.HostIP
        Tags := tags1
        Attrs := ((metadata.delete ['i', 'd']).delete ['t', 'a', 'g', 's']).delete
          ['n', 'a', 'm', 'e']
        pp := port })

/-! ## The port candidates of Add -/

/-- One iteration of the first loop of `Add`: the candidate list after visiting the map entry
`(port, published)`.  `p[1]` panics when the key has no `/`; `published[0]` is only read
when `len(published) > 0`. -/
def candidateStep (f : Flags) (container : Container) (ports : List PublishedPort)
    (entry : Str × List PortBinding) : Except Panic (List PublishedPort) :=
  let published := entry.2
  let p := Split '/' entry.1
  if published.length > 0 ∧ f.registerInternalAddress = false then
    match published.head?, p.get? 1 with
    | some first, some proto =>
      Except.ok (ports ++ [{ HostPort := first.HostPort, HostIP := first.HostIp,
                             ExposedPort := p.headD [], PortType := proto,
                             Container := container }])
    | _, _ => Except.error Panic.indexOutOfRange
  else if published.length > 0 ∨ f.registerExposedPorts = false then
    match p.get? 1 with
    | some proto =>
      Except.ok (ports ++ [{ HostPort := p.headD [],
                             HostIP := container.NetworkSettings.IPAddress,
                             ExposedPort := p.headD [], PortType := proto,
                             Container := container }])
    | none => Except.error Panic.indexOutOfRange
  else Except.ok ports

/-- The first loop of `Add` over the remaining entries of the port map. -/
def candidateLoop (f : Flags) (container : Container) :
    List (Str × List PortBinding) → List PublishedPort → Except Panic (List PublishedPort)
  | [], ports => Except.ok ports
  | entry :: rest, ports =>
    match candidateStep f container ports entry with
    | Except.error e => Except.error e
    | Except.ok ports1 => candidateLoop f container rest ports1

/-- The candidate list `ports` that `Add` builds for a container snapshot. -/
def candidates (f : Flags) (container : Container) : Except Panic (List PublishedPort) :=
  candidateLoop f container container.NetworkSettings.Ports []

/-! ## The bridge -/

/-- The registry behind the `ServiceRegistry` interface, seen through the retry policy:
`Register r s` is one `retry(func() error { return b.registry.Register(s) })` in registry
state `r`; it returns the next registry state and whether the returned error is `nil`.
The registry state is arbitrary, so an outcome may depend on everything that happened
before. -/
structure ServiceRegistry (ρ : Type) where
  Register : ρ → Service → ρ × Bool
  Deregister : ρ → Service → ρ × Bool

/-- The mutable state of a `RegistryBridge`: the state of its registry and the map
`services` from container identifier to registered services. -/
structure RegistryBridge (ρ : Type) where
  registry : ρ
  services : GoMap (List Service)

/-- What one call of `Add` or `Remove` did: the bridge state when the call returned (or
panicked), the retry-wrapped registry calls it issued, in order, each with its success
flag, and whether the call ended in a runtime panic. -/
structure Run (ρ : Type) where
  bridge : RegistryBridge ρ
  calls : List (Service × Bool)
  panicked : Bool

/-- Prepends a registry call to the record of a run. -/
def Run.after {ρ : Type} (call : Service × Bool) (r : Run ρ) : Run ρ :=
  { r with calls := call :: r.calls }

/-- The second loop of `Add`, over the remaining candidates.  `isgroup` is
`len(ports) > 1`; the log lines slice `container.ID[:12]`. -/
def addLoop {ρ : Type} (h : Host) (f : Flags) (R : ServiceRegistry ρ) (container : Container)
    (isgroup : Bool) : List PublishedPort → RegistryBridge ρ → Run ρ
  | [], b => { bridge := b, calls := [], panicked := false }
  | port :: rest, b =>
    match NewService h f port isgroup with
    | Except.error _ => { bridge := b, calls := [], panicked := true }
    | Except.ok none =>
      if container.ID.length < 12 then { bridge := b, calls := [], panicked := true }
      else addLoop h f R container isgroup rest b
    | Except.ok (some service) =>
      let res := R.Register b.registry service
      if res.2 = false then
        Run.after (service, false)
          (addLoop h f R container isgroup rest { b with registry := res.1 })
      else
        let b1 : RegistryBridge ρ :=
          { registry := res.1
            services := b.services.set container.ID
              ((b.services container.ID).getD [] ++ [service]) }
        if container.ID.length < 12 then
          { bridge := b1, calls := [(service, true)], panicked := true }
        else Run.after (service, true) (addLoop h f R container isgroup rest b1)

/-- `RegistryBridge.Add(containerId)`.  `docker` is `b.docker.InspectContainer` (`none` when
it returns an error). -/
def Add {ρ : Type} (h : Host) (f : Flags) (docker : Str → Option Container)
    (R : ServiceRegistry ρ) (b : RegistryBridge ρ) (containerId : Str) : Run ρ :=
  match docker containerId with
  | none =>
    { bridge := b, calls := [], panicked := decide (containerId.length < 12) }
  | some container =>
    match candidates f container with
    | Except.error _ => { bridge := b, calls := [], panicked := true }
    | Except.ok ports =>
      if ports.length = 0 then
        { bridge := b, calls := [], panicked := decide (container.ID.length < 12) }
      else addLoop h f R container (decide (ports.length > 1)) ports b

/-- The loop of `Remove` over the remaining services of the container.  The log line after
a successful deregistration slices `containerId[:12]`. -/
def removeLoop {ρ : Type} (R : ServiceRegistry ρ) (containerId : Str) :
    List Service → RegistryBridge ρ → Run ρ
  | [], b => { bridge := b, calls := [], panicked := false }
  | service :: rest, b =>
    let res := R.Deregister b.registry service
    let b1 : RegistryBridge ρ := { b with registry := res.1 }
    if res.2 = false then Run.after (service, false) (removeLoop R containerId rest b1)
    else if containerId.length < 12 then
      { bridge := b1, calls := [(service, true)], panicked := true }
    else Run.after (service, true) (removeLoop R containerId rest b1)

/-- `RegistryBridge.Remove(containerId)`: the loop, then `delete(b.services, containerId)`
(not reached when the loop panicked). -/
def Remove {ρ : Type} (R : ServiceRegistry ρ) (b : RegistryBridge ρ) (containerId : Str) :
    Run ρ :=
  let r := removeLoop R containerId ((b.services containerId).getD []) b
  if r.panicked = true then r
  else { r with bridge := { r.bridge with services := r.bridge.services.delete containerId } }

/-! ## Concrete inputs used in the examples -/

/-- A host whose name lookup succeeds and whose address resolution fails. -/
def exampleHost : Host :=
  { Hostname := some "reg-host".toList, ResolveIPAddr := fun _ => none }

/-- No override address, both policy flags off. -/
def flagsOff : Flags :=
  { hostIp := [], registerInternalAddress := false, registerExposedPorts := false }

/-- No override address, `registerExposedPorts` on. -/
def flagsExposed : Flags :=
  { hostIp := [], registerInternalAddress := false, registerExposedPorts := true }

/-- A container with one published port `80/tcp` and `SERVICE_80_IGNORE=true`. -/
def ignoredWeb : Container :=
  { ID := "0123456789abcdef".toList
    Name := "/web1".toList
    Config := { Image := "nginx:latest".toList, Env := ["SERVICE_80_IGNORE=true".toList] }
    NetworkSettings :=
      { IPAddress := "172.17.0.3".toList
        Ports := [("80/tcp".toList, [{ HostIp := "10.0.0.5".toList,
                                        HostPort := "32768".toList }])] } }

/-- The external candidate of `ignoredWeb` for `80/tcp`. -/
def ignoredWebPort : PublishedPort :=
  { HostPort := "32768".toList, HostIP := "10.0.0.5".toList, ExposedPort := "80".toList,
    PortType := "tcp".toList, Container := ignoredWeb }

/-- A container that exposes port 53 over both transports, unpublished. -/
def dnsBoth : Container :=
  { ID := "fedcba9876543210".toList
    Name := "/dns".toList
    Config := { Image := "example/dns:1.0".toList, Env := [] }
    NetworkSettings :=
      { IPAddress := "172.17.0.2".toList
        Ports := [("53/tcp".toList, []), ("53/udp".toList, [])] } }

/-- The internal candidate of a container for an unpublished port. -/
def internalPort (container : Container) (n proto : Str) : PublishedPort :=
  { HostPort := n, HostIP := container.NetworkSettings.IPAddress, ExposedPort := n,
    PortType := proto, Container := container }

/-- The decision table of the port resolver, row by row as the specification words it, for
a port key `n/proto` with host bindings `published`: the candidate the port yields, if any. -/
def decisionTable (f : Flags) (container : Container) (n proto : Str)
    (published : List PortBinding) : Option PublishedPort :=
  match published, f.registerInternalAddress, f.registerExposedPorts with
  | binding :: _, false, _ =>
    some { HostPort := binding.HostPort, HostIP := binding.HostIp, ExposedPort := n,
           PortType := proto, Container := container }
  | _ :: _, true, _ =>
    some { HostPort := n, HostIP := container.NetworkSettings.IPAddress, ExposedPort := n,
           PortType := proto, Container := container }
  | [], _, false =>
    some { HostPort := n, HostIP := container.NetworkSettings.IPAddress, ExposedPort := n,
           PortType := proto, Container := container }
  | [], _, true => none

/-- A container whose only port `53/udp` is unpublished, with internal IP `172.17.0.2`. -/
def dnsUdp : Container :=
  { ID := "a1b2c3d4e5f60718".toList
    Name := "/resolver".toList
    Config := { Image := "example/dns:1.0".toList, Env := [] }
    NetworkSettings :=
      { IPAddress := "172.17.0.2".toList
        Ports := [("53/udp".toList, [])] } }

/-- A registry without state whose calls always succeed. -/
def alwaysOk : ServiceRegistry Unit :=
  { Register := fun _ _ => ((), true), Deregister := fun _ _ => ((), true) }

/-- A bridge that has registered nothing. -/
def emptyBridge : RegistryBridge Unit :=
  { registry := (), services := GoMap.empty }

/-- A service record with the given ID, for the port 53/udp of `dnsUdp`. -/
def sampleService (id : Str) : Service :=
  { ID := id, Name := "dns".toList, Port := 53, IP := "172.17.0.2".toList,
    Tags := [['u', 'd', 'p']], Attrs := GoMap.empty,
    pp := internalPort dnsUdp "53".toList "udp".toList }

/-- A bridge that holds two services under the three-character identifier `abc`. -/
def shortIdBridge : RegistryBridge Unit :=
  { registry := ()
    services := GoMap.empty.set "abc".toList
      [sampleService "svc-1".toList, sampleService "svc-2".toList] }

/-- The mapping `m1` overwritten by `m2`: every key of `m2` takes the value `m2` gives it, every
other key keeps the value of `m1`. -/
def GoMap.overwrite {β : Type} (m1 m2 : GoMap β) : GoMap β :=
  fun k => match m2 k with
    | some v => some v
    | none => m1 k

/-- A container with one published port `80/tcp` and the metadata `SERVICE_NAME=frontend`,
`SERVICE_TAGS=prod,edge`. -/
def frontendWeb : Container :=
  { ID := "0a1b2c3d4e5f6071".toList
    Name := "/web1".toList
    Config := { Image := "nginx:latest".toList,
                Env := ["SERVICE_NAME=frontend".toList, "SERVICE_TAGS=prod,edge".toList] }
    NetworkSettings :=
      { IPAddress := "172.17.0.4".toList
        Ports := [("80/tcp".toList, [{ HostIp := "10.0.0.5".toList,
                                        HostPort := "32768".toList }])] } }

/-- The external candidate of `frontendWeb` for `80/tcp`. -/
def frontendWebPort : PublishedPort :=
  { HostPort := "32768".toList, HostIP := "10.0.0.5".toList, ExposedPort := "80".toList,
    PortType := "tcp".toList, Container := frontendWeb }

/-- A container whose port `80/tcp` has two host bindings. -/
def twoBindings : Container :=
  { ID := "77aa88bb99cc00dd".toList
    Name := "/web2".toList
    Config := { Image := "nginx:latest".toList, Env := [] }
    NetworkSettings :=
      { IPAddress := "172.17.0.5".toList
        Ports := [("80/tcp".toList,
                   [{ HostIp := "10.0.0.5".toList, HostPort := "32768".toList },
                    { HostIp := "10.0.0.6".toList, HostPort := "32769".toList }])] } }

/-- The services of the candidates that are not suppressed, in candidate order: what
`NewService` returns for each candidate that yields a service. -/
def builtServices (h : Host) (f : Flags) (isgroup : Bool) (ports : List PublishedPort) :
    List Service :=
  ports.filterMap (fun port =>
    match NewService h f port isgroup with
    | Except.ok (some service) => some service
    | _ => none)

/-- One retry-wrapped `Register` per service, in order, starting in registry state `r`: each
service with the outcome of its registration. -/
def registerAll {ρ : Type} (R : ServiceRegistry ρ) : List Service → ρ → List (Service × Bool)
  | [], _ => []
  | service :: rest, r =>
    (service, (R.Register r service).2) :: registerAll R rest (R.Register r service).1

/-- The map `m` with the entry of `k` extended at its end by `added`; the map itself when
nothing is added. -/
def extendEntry (m : GoMap (List Service)) (k : Str) (added : List Service) :
    GoMap (List Service) :=
  match added with
  | [] => m
  | _ :: _ => m.set k ((m k).getD [] ++ added)

/-- A registry without state whose calls always fail. -/
def alwaysFail : ServiceRegistry Unit :=
  { Register := fun _ _ => ((), false), Deregister := fun _ _ => ((), false) }

/-! ## Sequences of calls -/

/-- A call on the bridge.  For `Add` the call carries what the inspection of the container
returns at that moment (`none` when it fails). -/
inductive Op where
  | add (containerId : Str) (inspected : Option Container)
  | remove (containerId : Str)

/-- The run of one call in bridge state `b`. -/
def applyOp {ρ : Type} (h : Host) (f : Flags) (R : ServiceRegistry ρ) (b : RegistryBridge ρ) :
    Op → Run ρ
  | Op.add containerId inspected => Add h f (fun _ => inspected) R b containerId
  | Op.remove containerId => Remove R b containerId

/-- One call of a sequence: the bridge state before it, the call, and its run. -/
structure Event (ρ : Type) where
  before : RegistryBridge ρ
  op : Op
  run : Run ρ

/-- The history of a sequence of calls started in bridge state `b`: each call runs in the
state the previous one left. -/
def runOps {ρ : Type} (h : Host) (f : Flags) (R : ServiceRegistry ρ) :
    List Op → RegistryBridge ρ → List (Event ρ)
  | [], _ => []
  | op :: rest, b =>
    { before := b, op := op, run := applyOp h f R b op }
      :: runOps h f R rest (applyOp h f R b op).bridge

/-- The bridge state after a history that started in state `b`. -/
def finalBridge {ρ : Type} (b : RegistryBridge ρ) : List (Event ρ) → RegistryBridge ρ
  | [] => b
  | e :: rest => finalBridge e.run.bridge rest

/-- The event is an `Add` whose inspected snapshot has identifier `k` and in which at least
one registration succeeded. -/
def Event.registersFor {ρ : Type} (k : Str) (e : Event ρ) : Bool :=
  match e.op with
  | Op.add _ (some s) => decide (s.ID = k) && e.run.calls.any Prod.snd
  | _ => false

/-- The event is a `Remove` of the identifier `k`. -/
def Event.removes {ρ : Type} (k : Str) (e : Event ρ) : Bool :=
  match e.op with
  | Op.remove c => decide (c = k)
  | _ => false

/-- The services held in the map have pairwise distinct IDs: within the list of each
container, and across the lists of two containers. -/
def distinctIDs {ρ : Type} (b : RegistryBridge ρ) : Prop :=
  (∀ k l, b.services k = some l → (l.map Service.ID).Nodup) ∧
  (∀ k1 k2 l1 l2, k1 ≠ k2 → b.services k1 = some l1 → b.services k2 = some l2 →
    ∀ x ∈ l1, ∀ y ∈ l2, x.ID ≠ y.ID)

/-- A snapshot whose services get computed IDs that tell its ports apart: the container name
after its first character has no `:`, no `id` metadata applies to any port, and the port
keys are pairwise distinct, of the form `n/tcp` or `n/udp` with `n` free of `/` and `:`. -/
def plainSnapshot (s : Container) : Prop :=
  (∀ ch ∈ s.Name.drop 1, ch ≠ ':') ∧
  (∀ p, mapdefault (serviceMetaData s.Config.Env p) ['i', 'd'] [] = []) ∧
  ∃ entries : List (Str × Str × List PortBinding),
    s.NetworkSettings.Ports = entries.map (fun e => (e.1 ++ ['/'] ++ e.2.1, e.2.2)) ∧
    (∀ e ∈ entries, (∀ c ∈ e.1, c ≠ '/' ∧ c ≠ ':') ∧
      (e.2.1 = ['t', 'c', 'p'] ∨ e.2.1 = ['u', 'd', 'p'])) ∧
    (entries.map (fun e => (e.1, e.2.1))).Nodup

/-- No service held in the bridge state belongs to a container with the name of `s` (names
compared after their first character, as the service ID uses them). -/
def freshName {ρ : Type} (b : RegistryBridge ρ) (s : Container) : Prop :=
  ∀ k l x, b.services k = some l → x ∈ l →
    x.pp.Container.Name.drop 1 ≠ s.Name.drop 1

/-- The ID of the service is the computed one for host name `H`, and its parts can be read
back from it: no `:` in the container name and in the exposed port, transport `tcp` or
`udp`. -/
def wellFormedID (H : Str) (x : Service) : Prop :=
  x.ID = H ++ [':'] ++ x.pp.Container.Name.drop 1 ++ [':'] ++ x.pp.ExposedPort
    ++ (if x.pp.PortType = ['u', 'd', 'p'] then [':', 'u', 'd', 'p'] else []) ∧
  (∀ ch ∈ x.pp.Container.Name.drop 1, ch ≠ ':') ∧
  (∀ ch ∈ x.pp.ExposedPort, ch ≠ ':') ∧
  (x.pp.PortType = ['t', 'c', 'p'] ∨ x.pp.PortType = ['u', 'd', 'p'])

/-- Every service held in the bridge state has a well-formed computed ID. -/
def heldWellFormed {ρ : Type} (H : Str) (b : RegistryBridge ρ) : Prop :=
  ∀ k l x, b.services k = some l → x ∈ l → wellFormedID H x

/-- A snapshot with the empty string as container name. -/
def unnamedContainer : Container :=
  { ID := "0011223344556677".toList
    Name := []
    Config := { Image := "example/dns:1.0".toList, Env := [] }
    NetworkSettings :=
      { IPAddress := "172.17.0.6".toList, Ports := [("53/udp".toList, [])] } }

/-- A snapshot whose only port key has no `/`. -/
def noSlashContainer : Container :=
  { ID := "8899aabbccddeeff".toList
    Name := "/odd".toList
    Config := { Image := "example/dns:1.0".toList, Env := [] }
    NetworkSettings :=
      { IPAddress := "172.17.0.7".toList, Ports := [("53".toList, [])] } }

/-- A snapshot with a three-character identifier and two unpublished ports. -/
def shortIdContainer : Container :=
  { ID := "abc".toList
    Name := "/short".toList
    Config := { Image := "example/dns:1.0".toList, Env := [] }
    NetworkSettings :=
      { IPAddress := "172.17.0.8".toList
        Ports := [("53/tcp".toList, []), ("53/udp".toList, [])] } }

/-- One retry-wrapped `Deregister` per service, in order, starting in registry state `r`:
each service with the outcome of its deregistration. -/
def deregisterAll {ρ : Type} (R : ServiceRegistry ρ) : List Service → ρ → List (Service × Bool)
  | [], _ => []
  | service :: rest, r =>
    (service, (R.Deregister r service).2) :: deregisterAll R rest (R.Deregister r service).1

/-- A registry that counts its calls: the first call of all fails, every later one
succeeds. -/
def failsOnce : ServiceRegistry Nat :=
  { Register := fun n _ => (n + 1, decide (n ≠ 0))
    Deregister := fun n _ => (n + 1, decide (n ≠ 0)) }

/-- A bridge with the fresh registry `failsOnce` that already holds one service under the
identifier of `dnsBoth`. -/
def preloadedBridge : RegistryBridge Nat :=
  { registry := 0
    services := GoMap.empty.set dnsBoth.ID [sampleService "earlier".toList] }

/-- A registry that counts its deregistrations: registrations succeed, the first
deregistration fails, every later one succeeds. -/
def deregisterFailsOnce : ServiceRegistry Nat :=
  { Register := fun n _ => (n, true)
    Deregister := fun n _ => (n + 1, decide (n ≠ 0)) }

/-- A bridge with a fresh counting registry that has registered nothing. -/
def freshBridge : RegistryBridge Nat :=
  { registry := 0, services := GoMap.empty }

/-! ## Lemmas on the string functions -/

theorem takeWhile_append_sep (sep : Char) (a b : Str) (h : ∀ c ∈ a, c ≠ sep) :
    (a ++ b).takeWhile (fun c => c != sep) = a ++ b.takeWhile (fun c => c != sep) := by
  induction a with
  | nil => rfl
  | cons x xs ih =>
    have hx : x ≠ sep := h x (List.mem_cons_self x xs)
    have hxs : ∀ c ∈ xs, c ≠ sep := fun c hc => h c (List.mem_cons_of_mem x hc)
    have hb : (x != sep) = true := by simpa using hx
    rw [List.cons_append, List.takeWhile_cons, hb, List.cons_append, ih hxs]; rfl

theorem dropWhile_append_sep (sep : Char) (a b : Str) (h : ∀ c ∈ a, c ≠ sep) :
    (a ++ b).dropWhile (fun c => c != sep) = b.dropWhile (fun c => c != sep) := by
  induction a with
  | nil => rfl
  | cons x xs ih =>
    have hx : x ≠ sep := h x (List.mem_cons_self x xs)
    have hxs : ∀ c ∈ xs, c ≠ sep := fun c hc => h c (List.mem_cons_of_mem x hc)
    have hb : (x != sep) = true := by simpa using hx
    rw [List.cons_append, List.dropWhile_cons, hb, ih hxs]; rfl

/-- Splitting at the first separator: when `a` has no separator, `a ++ sep :: b` splits into
`a` and `b`. -/
theorem SplitN2_append (sep : Char) (a b : Str) (h : ∀ c ∈ a, c ≠ sep) :
    SplitN2 sep (a ++ sep :: b) = [a, b] := by
  have h1 := takeWhile_append_sep sep a (sep :: b) h
  have h2 := dropWhile_append_sep sep a (sep :: b) h
  simp [List.takeWhile, List.dropWhile] at h1 h2
  simp [SplitN2, h1, h2]

/-- The first piece of a split is the text before the first separator. -/
theorem SplitN2_head (sep : Char) (s : Str) :
    (SplitN2 sep s).headD [] = s.takeWhile (fun c => c != sep) := by
  unfold SplitN2
  cases hd : s.dropWhile (fun c => c != sep) with
  | nil =>
    have hall : ∀ c ∈ s, (fun c => c != sep) c = true := by
      intro c hc
      by_contra hcon
      have : s.dropWhile (fun c => c != sep) ≠ [] := by
        rw [Ne, List.dropWhile_eq_nil_iff]
        intro hh
        exact hcon (hh c hc)
      exact this hd
    simp only [List.headD_cons]
    exact (List.takeWhile_eq_self_iff.mpr hall).symm
  | cons x xs => simp

/-! ## Lemmas on Atoi -/

/-- A decimal digit is neither `_` nor `=`, and lower-casing leaves it unchanged. -/
theorem digit_char_facts (c : Char) (h : 48 ≤ c.toNat ∧ c.toNat ≤ 57) :
    c ≠ '_' ∧ c ≠ '=' ∧ toLowerRune c = c := by
  refine ⟨?_, ?_, ?_⟩
  · intro hc
    subst hc
    revert h
    decide
  · intro hc
    subst hc
    revert h
    decide
  · unfold toLowerRune
    rw [if_neg]
    omega

/-- A sign character is neither `_` nor `=`, and lower-casing leaves it unchanged. -/
theorem sign_char_facts (c : Char) (h : c = '+' ∨ c = '-') :
    c ≠ '_' ∧ c ≠ '=' ∧ toLowerRune c = c := by
  rcases h with h | h <;> subst h <;> decide

theorem parseUintLoop_ok_digits :
    ∀ (s : Str) (n : Nat), (parseUintLoop s n).2 = none →
      ∀ c ∈ s, 48 ≤ c.toNat ∧ c.toNat ≤ 57 := by
  intro s
  induction s with
  | nil => intro n _ c hc; cases hc
  | cons x xs ih =>
    intro n h c hc
    unfold parseUintLoop at h
    by_cases hx : 48 ≤ x.toNat ∧ x.toNat ≤ 57
    · rw [if_pos hx] at h
      by_cases h1 : n ≥ (2 ^ 64 - 1) / 10 + 1
      · rw [if_pos h1] at h
        cases h
      · rw [if_neg h1] at h
        by_cases h2 : n * 10 + (x.toNat - 48) > 2 ^ 64 - 1
        · simp only [h2, if_true] at h
          cases h
        · simp only [h2, if_false] at h
          rcases List.mem_cons.mp hc with hcx | hcxs
          · subst hcx
            exact hx
          · exact ih _ h c hcxs
    · rw [if_neg hx] at h
      cases h

theorem ParseUint_ok_digits (s : Str) (h : (ParseUint s).2 = none) :
    ∀ c ∈ s, 48 ≤ c.toNat ∧ c.toNat ≤ 57 := by
  cases s with
  | nil => intro c hc; cases hc
  | cons x xs => exact parseUintLoop_ok_digits (x :: xs) 0 h

theorem parseUintLoop_range_value :
    ∀ (s : Str) (n : Nat), (parseUintLoop s n).2 = some NumError.outOfRange →
      (parseUintLoop s n).1 = 2 ^ 64 - 1 := by
  intro s
  induction s with
  | nil => intro n h; simp [parseUintLoop] at h
  | cons x xs ih =>
    intro n h
    unfold parseUintLoop at h ⊢
    by_cases hx : 48 ≤ x.toNat ∧ x.toNat ≤ 57
    · rw [if_pos hx] at h ⊢
      by_cases h1 : n ≥ (2 ^ 64 - 1) / 10 + 1
      · rw [if_pos h1]
      · rw [if_neg h1] at h ⊢
        by_cases h2 : n * 10 + (x.toNat - 48) > 2 ^ 64 - 1
        · simp only [h2, if_true]
        · simp only [h2, if_false] at h ⊢
          exact ih _ h
    · rw [if_neg hx] at h
      simp at h

theorem ParseUint_range_value (s : Str) (h : (ParseUint s).2 = some NumError.outOfRange) :
    (ParseUint s).1 = 2 ^ 64 - 1 := by
  cases s with
  | nil => simp [ParseUint] at h
  | cons x xs => exact parseUintLoop_range_value (x :: xs) 0 h

/-- When `Atoi` accepts a string, the string consists of sign characters and digits. -/
theorem Atoi_ok_digits (s : Str) (h : (Atoi s).2 = none) :
    ∀ c ∈ s, (c = '+' ∨ c = '-') ∨ (48 ≤ c.toNat ∧ c.toNat ≤ 57) := by
  cases s with
  | nil => intro c hc; cases hc
  | cons x xs =>
    have hp : (ParseUint (if x = '+' ∨ x = '-' then xs else x :: xs)).2 = none := by
      unfold Atoi at h
      simp only at h
      have hr := ParseUint_range_value (if x = '+' ∨ x = '-' then xs else x :: xs)
      generalize ParseUint (if x = '+' ∨ x = '-' then xs else x :: xs) = r at h hr
      rcases r with ⟨un, e⟩
      cases e with
      | none => rfl
      | some e =>
        cases e with
        | malformed => simp at h
        | outOfRange =>
          have hun : un = 2 ^ 64 - 1 := hr rfl
          subst hun
          simp only at h
          by_cases hneg : x = '-'
          · simp [hneg] at h
          · simp [hneg] at h
    intro c hc
    by_cases hs : x = '+' ∨ x = '-'
    · rw [if_pos hs] at hp
      rcases List.mem_cons.mp hc with hcx | hcxs
      · subst hcx
        exact Or.inl hs
      · exact Or.inr (ParseUint_ok_digits xs hp c hcxs)
    · rw [if_neg hs] at hp
      exact Or.inr (ParseUint_ok_digits (x :: xs) hp c hc)

/-- When `Atoi` accepts a string, the string has no `_` and no `=`, and lower-casing leaves
it unchanged. -/
theorem Atoi_ok_chars (s : Str) (h : (Atoi s).2 = none) :
    (∀ c ∈ s, c ≠ '_') ∧ (∀ c ∈ s, c ≠ '=') ∧ ToLower s = s := by
  have hd := Atoi_ok_digits s h
  have hf : ∀ c ∈ s, c ≠ '_' ∧ c ≠ '=' ∧ toLowerRune c = c := by
    intro c hc
    rcases hd c hc with hs | hdig
    · exact sign_char_facts c hs
    · exact digit_char_facts c hdig
  refine ⟨fun c hc => (hf c hc).1, fun c hc => (hf c hc).2.1, ?_⟩
  unfold ToLower
  conv_rhs => rw [← List.map_id s]
  exact List.map_congr_left (fun c hc => (hf c hc).2.2)

/-! ## Lemmas on serviceMetaData -/

theorem HasPrefix_append (pre s : Str) : HasPrefix (pre ++ s) pre = true := by
  simp [HasPrefix]

theorem TrimPrefix_append (pre s : Str) : TrimPrefix (pre ++ s) pre = s := by
  simp [TrimPrefix, HasPrefix_append]

theorem servicePrefix_no_eq : ∀ c ∈ servicePrefix, c ≠ '=' := by decide

/-- A string that contains `sep` splits at its first occurrence. -/
theorem split_first (sep : Char) (s : Str) (h : sep ∈ s) :
    ∃ a b, s = a ++ sep :: b ∧ ∀ c ∈ a, c ≠ sep := by
  induction s with
  | nil => cases h
  | cons x xs ih =>
    by_cases hx : x = sep
    · exact ⟨[], xs, by simp [hx], by simp⟩
    · have hxs : sep ∈ xs := by
        rcases List.mem_cons.mp h with h1 | h1
        · exact absurd h1.symm hx
        · exact h1
      obtain ⟨a, b, hab, ha⟩ := ih hxs
      refine ⟨x :: a, b, by simp [hab], ?_⟩
      intro c hc
      rcases List.mem_cons.mp hc with h1 | h1
      · rw [h1]; exact hx
      · exact ha c h1

/-- A variable `SERVICE_<q>_<rest>` whose `<q>` parses as an integer other than the port
being processed, and which has a value, leaves the mapping as it is. -/
theorem metaDataStep_other_port (p q rest : Str) (m : GoMap Str)
    (hq : (Atoi q).2 = none) (hne : q ≠ p) (hrest : '=' ∈ rest) :
    metaDataStep p m (servicePrefix ++ (q ++ '_' :: rest)) = m := by
  obtain ⟨hq_us, hq_eq, hq_low⟩ := Atoi_ok_chars q hq
  obtain ⟨a, b, hab, ha⟩ := split_first '=' rest hrest
  have hpre : ∀ c ∈ servicePrefix ++ (q ++ '_' :: a), c ≠ '=' := by
    intro c hc
    rcases List.mem_append.mp hc with h1 | h1
    · exact servicePrefix_no_eq c h1
    · rcases List.mem_append.mp h1 with h2 | h2
      · exact hq_eq c h2
      · rcases List.mem_cons.mp h2 with h3 | h3
        · rw [h3]; decide
        · exact ha c h3
  have hkv : servicePrefix ++ (q ++ '_' :: rest)
      = (servicePrefix ++ (q ++ '_' :: a)) ++ '=' :: b := by
    simp [hab]
  have hsplit := SplitN2_append '=' (servicePrefix ++ (q ++ '_' :: a)) b hpre
  have hlow : ToLower (q ++ '_' :: a) = q ++ '_' :: ToLower a := by
    have h1 : ToLower (q ++ '_' :: a) = ToLower q ++ toLowerRune '_' :: ToLower a := by
      simp [ToLower]
    have hus : toLowerRune '_' = '_' := by decide
    rw [h1, hq_low, hus]
  have hsplit2 := SplitN2_append '_' q (ToLower a) hq_us
  unfold metaDataStep
  simp only [hkv, hsplit, List.headD_cons, HasPrefix_append, TrimPrefix_append, hlow, hsplit2]
  simp [hq, hne]

/-- A variable `SERVICE_<name>=<value>` whose lower-cased name has a first segment that is
not an integer stores its value under the lower-cased name. -/
theorem metaDataStep_global (p name value : Str) (m : GoMap Str)
    (hname : ∀ c ∈ name, c ≠ '=')
    (hseg : (Atoi ((ToLower name).takeWhile (fun c => c != '_'))).2 ≠ none) :
    metaDataStep p m (servicePrefix ++ (name ++ '=' :: value))
      = m.set (ToLower name) value := by
  have hpre : ∀ c ∈ servicePrefix ++ name, c ≠ '=' := by
    intro c hc
    rcases List.mem_append.mp hc with h1 | h1
    · exact servicePrefix_no_eq c h1
    · exact hname c h1
  have hkv : servicePrefix ++ (name ++ '=' :: value) = (servicePrefix ++ name) ++ '=' :: value := by
    simp
  have hsplit := SplitN2_append '=' (servicePrefix ++ name) value hpre
  unfold metaDataStep
  simp only [hkv, hsplit, List.headD_cons, HasPrefix_append, TrimPrefix_append, SplitN2_head]
  simp [hseg]

/-- A step of `serviceMetaData` never removes a key. -/
theorem metaDataStep_keeps_key (p kv k : Str) (m : GoMap Str) (h : (m k).isSome = true) :
    (metaDataStep p m kv k).isSome = true := by
  have hset : ∀ (k1 v1 : Str), ((m.set k1 v1) k).isSome = true := by
    intro k1 v1
    unfold GoMap.set
    by_cases hk : k = k1
    · simp [hk]
    · simp [hk, h]
  unfold metaDataStep
  simp only
  split_ifs
  · exact h
  · exact hset _ _
  · exact hset _ _
  · exact h

theorem foldl_metaDataStep_keeps_key (p k : Str) (env : List Str) :
    ∀ m : GoMap Str, (m k).isSome = true →
      ((env.foldl (metaDataStep p) m) k).isSome = true := by
  induction env with
  | nil => intro m h; exact h
  | cons kv rest ih =>
    intro m h
    exact ih _ (metaDataStep_keeps_key p kv k m h)

theorem foldl_metaDataStep_filter (p kv : Str) (hskip : ∀ m, metaDataStep p m kv = m)
    (env : List Str) :
    ∀ m : GoMap Str, env.foldl (metaDataStep p) m
      = (env.filter (fun x => decide (x ≠ kv))).foldl (metaDataStep p) m := by
  induction env with
  | nil => intro m; rfl
  | cons x rest ih =>
    intro m
    by_cases hx : x = kv
    · subst hx
      simp only [List.foldl_cons, hskip, ih m]
      simp
    · simp only [List.foldl_cons, ih (metaDataStep p m x)]
      simp [hx]

/-! ## Claims -/

/-- C1: a port-scoped variable `SERVICE_<q>_<name>=<value>` whose `<q>` parses as an integer
and differs from the port `p` being parsed contributes nothing to `serviceMetaData(env, p)`:
the mapping is the same as for the list with that variable removed, both when one occurrence
at any position is removed and when every occurrence is removed. -/
theorem C1_other_port_variable_removed (p q name value : Str)
    (hq : (Atoi q).2 = none) (hne : q ≠ p) :
    (∀ env1 env2 : List Str,
      serviceMetaData (env1 ++ [servicePrefix ++ q ++ ['_'] ++ name ++ ['='] ++ value] ++ env2) p
        = serviceMetaData (env1 ++ env2) p) ∧
    (∀ env : List Str,
      serviceMetaData env p
        = serviceMetaData
            (env.filter (fun kv =>
              decide (kv ≠ servicePrefix ++ q ++ ['_'] ++ name ++ ['='] ++ value))) p) := by
  have hkv : servicePrefix ++ q ++ ['_'] ++ name ++ ['='] ++ value
      = servicePrefix ++ (q ++ '_' :: (name ++ '=' :: value)) := by
    simp
  have hskip : ∀ m, metaDataStep p m (servicePrefix ++ q ++ ['_'] ++ name ++ ['='] ++ value)
      = m := by
    intro m
    rw [hkv]
    exact metaDataStep_other_port p q (name ++ '=' :: value) m hq hne (by simp)
  constructor
  · intro env1 env2
    unfold serviceMetaData
    simp only [List.foldl_append, List.foldl_cons, List.foldl_nil, hskip]
  · intro env
    unfold serviceMetaData
    exact foldl_metaDataStep_filter p _ hskip env GoMap.empty

/-- Witness for C1: a variable for port 443 while port 80 is parsed. -/
theorem C1_other_port_variable_removed_witness :
    (∀ env1 env2 : List Str,
      serviceMetaData (env1 ++ [servicePrefix ++ "443".toList ++ ['_'] ++ "NAME".toList
          ++ ['='] ++ "web".toList] ++ env2) "80".toList
        = serviceMetaData (env1 ++ env2) "80".toList) ∧
    (∀ env : List Str,
      serviceMetaData env "80".toList
        = serviceMetaData
            (env.filter (fun kv =>
              decide (kv ≠ servicePrefix ++ "443".toList ++ ['_'] ++ "NAME".toList
                ++ ['='] ++ "web".toList))) "80".toList) :=
  C1_other_port_variable_removed "80".toList "443".toList "NAME".toList "web".toList
    (by decide) (by decide)

/-- C2: a global variable `SERVICE_<name>=<value>` (the name is the text before the first
`=`), whose lower-cased name has a first segment that does not parse as an integer, makes
the lower-cased name a key of `serviceMetaData(env, p)`, whatever the port `p`. -/
theorem C2_global_key_always_present (env : List Str) (p name value : Str)
    (hname : ∀ c ∈ name, c ≠ '=')
    (hmem : servicePrefix ++ name ++ ['='] ++ value ∈ env)
    (hseg : (Atoi ((ToLower name).takeWhile (fun c => c != '_'))).2 ≠ none) :
    ∃ v, serviceMetaData env p (ToLower name) = some v := by
  obtain ⟨s, t, hst⟩ := List.append_of_mem hmem
  have hkv : servicePrefix ++ name ++ ['='] ++ value
      = servicePrefix ++ (name ++ '=' :: value) := by
    simp
  have hkey : ((serviceMetaData env p) (ToLower name)).isSome = true := by
    unfold serviceMetaData
    rw [hst, List.foldl_append, List.foldl_cons, hkv, metaDataStep_global p name value _ hname hseg]
    apply foldl_metaDataStep_keeps_key
    simp [GoMap.set]
  exact Option.isSome_iff_exists.mp hkey

/-- Witness for C2: `SERVICE_REGION=eu` among other variables, parsed for port 80. -/
theorem C2_global_key_always_present_witness :
    ∃ v, serviceMetaData ["PATH=/bin".toList, "SERVICE_REGION=eu".toList] "80".toList
      (ToLower "REGION".toList) = some v :=
  C2_global_key_always_present ["PATH=/bin".toList, "SERVICE_REGION=eu".toList] "80".toList
    "REGION".toList "eu".toList (by decide) (by decide) (by decide)

/-- C3: when the metadata parsed for the candidate's exposed port maps `ignore` to a
non-empty string, `NewService` returns `nil`, for every candidate, every `isgroup`, every
hostname lookup result and every override address. -/
theorem C3_ignore_suppresses (h : Host) (f : Flags) (port : PublishedPort) (isgroup : Bool)
    (v : Str)
    (hv : serviceMetaData port.Container.Config.Env port.ExposedPort
      ['i', 'g', 'n', 'o', 'r', 'e'] = some v)
    (hne : v ≠ []) :
    NewService h f port isgroup = Except.ok none := by
  unfold NewService
  simp [mapdefault, hv, hne]

/-- Witness for C3: `SERVICE_80_IGNORE=true` on the candidate for port 80. -/
theorem C3_ignore_suppresses_witness :
    NewService exampleHost flagsOff ignoredWebPort false = Except.ok none :=
  C3_ignore_suppresses exampleHost flagsOff ignoredWebPort false "true".toList
    (by decide) (by decide)

/-- C4: for a candidate that is not suppressed and whose container name starts with `/`,
`NewService` returns a service; its ID is the metadata `id` when that is non-empty, and
otherwise `H:<name without the slash>:<exposed port>`, with `:udp` appended exactly when the
transport type is `udp`, where `H` is the local host name, or the candidate's host IP when
the host name lookup fails. -/
theorem C4_service_id (h : Host) (f : Flags) (port : PublishedPort) (isgroup : Bool)
    (rest : Str)
    (hname : port.Container.Name = '/' :: rest)
    (hign : serviceMetaData port.Container.Config.Env port.ExposedPort
        ['i', 'g', 'n', 'o', 'r', 'e'] = none ∨
      serviceMetaData port.Container.Config.Env port.ExposedPort
        ['i', 'g', 'n', 'o', 'r', 'e'] = some []) :
    ∃ s, NewService h f port isgroup = Except.ok (some s) ∧
      (∀ v, serviceMetaData port.Container.Config.Env port.ExposedPort ['i', 'd'] = some v →
        v ≠ [] → s.ID = v) ∧
      ((serviceMetaData port.Container.Config.Env port.ExposedPort ['i', 'd'] = none ∨
        serviceMetaData port.Container.Config.Env port.ExposedPort ['i', 'd'] = some []) →
        s.ID = h.Hostname.getD port.HostIP ++ [':'] ++ rest ++ [':'] ++ port.ExposedPort
          ++ (if port.PortType = ['u', 'd', 'p'] then [':', 'u', 'd', 'p'] else [])) := by
  have hi : mapdefault
      (serviceMetaData port.Container.Config.Env port.ExposedPort)
      ['i', 'g', 'n', 'o', 'r', 'e'] [] = [] := by
    rcases hign with h1 | h1 <;> simp [mapdefault, h1]
  have hhost : resolvedHostname h port = h.Hostname.getD port.HostIP := by
    unfold resolvedHostname
    cases h.Hostname <;> rfl
  unfold NewService
  simp only [hi, hname, ne_eq, not_true_eq_false, if_false, List.length_cons]
  rw [if_neg (by omega : ¬ (rest.length + 1 < 1))]
  refine ⟨_, rfl, ?_, ?_⟩
  · intro v hv hne
    simp [mapdefault, hv, hne]
  · intro hid
    have hidd : mapdefault
        (serviceMetaData port.Container.Config.Env port.ExposedPort) ['i', 'd'] [] = [] := by
      rcases hid with h1 | h1 <;> simp [mapdefault, h1]
    simp only [hidd, hhost]
    by_cases hu : port.PortType = ['u', 'd', 'p']
    · simp [hu]
    · simp [hu]

/-- Witness for C4: the second candidate of `dnsBoth`, a udp port without `id` metadata. -/
theorem C4_service_id_witness :
    ∃ s, NewService exampleHost flagsOff (internalPort dnsBoth "53".toList "udp".toList) true
        = Except.ok (some s) ∧
      (∀ v, serviceMetaData (internalPort dnsBoth "53".toList "udp".toList).Container.Config.Env
          (internalPort dnsBoth "53".toList "udp".toList).ExposedPort ['i', 'd'] = some v →
        v ≠ [] → s.ID = v) ∧
      ((serviceMetaData (internalPort dnsBoth "53".toList "udp".toList).Container.Config.Env
          (internalPort dnsBoth "53".toList "udp".toList).ExposedPort ['i', 'd'] = none ∨
        serviceMetaData (internalPort dnsBoth "53".toList "udp".toList).Container.Config.Env
          (internalPort dnsBoth "53".toList "udp".toList).ExposedPort ['i', 'd'] = some []) →
        s.ID = exampleHost.Hostname.getD (internalPort dnsBoth "53".toList "udp".toList).HostIP
          ++ [':'] ++ "dns".toList ++ [':']
          ++ (internalPort dnsBoth "53".toList "udp".toList).ExposedPort
          ++ (if (internalPort dnsBoth "53".toList "udp".toList).PortType = ['u', 'd', 'p']
              then [':', 'u', 'd', 'p'] else [])) :=
  C4_service_id exampleHost flagsOff (internalPort dnsBoth "53".toList "udp".toList) true
    "dns".toList (by decide) (Or.inl (by decide))

/-! ### NewService on a candidate that is built -/

/-- When the candidate is not suppressed and the container name is not empty, `NewService`
returns a service, with the fields below. -/
theorem NewService_built (h : Host) (f : Flags) (port : PublishedPort) (isgroup : Bool)
    (hname : port.Container.Name ≠ [])
    (hign : mapdefault (serviceMetaData port.Container.Config.Env port.ExposedPort)
      ['i', 'g', 'n', 'o', 'r', 'e'] [] = []) :
    ∃ s, NewService h f port isgroup = Except.ok (some s) ∧
      s.Name = mapdefault (serviceMetaData port.Container.Config.Env port.ExposedPort)
        ['n', 'a', 'm', 'e'] (defaultName port isgroup) ∧
      s.ID = (if mapdefault (serviceMetaData port.Container.Config.Env port.ExposedPort)
            ['i', 'd'] [] ≠ [] then
          mapdefault (serviceMetaData port.Container.Config.Env port.ExposedPort) ['i', 'd'] []
        else resolvedHostname h port ++ [':'] ++ port.Container.Name.drop 1 ++ [':']
          ++ port.ExposedPort
          ++ (if port.PortType = ['u', 'd', 'p'] then [':', 'u', 'd', 'p'] else [])) ∧
      s.Tags = (if mapdefault (serviceMetaData port.Container.Config.Env port.ExposedPort)
            ['t', 'a', 'g', 's'] [] ≠ [] then
          Split ',' (mapdefault (serviceMetaData port.Container.Config.Env port.ExposedPort)
            ['t', 'a', 'g', 's'] [])
        else [])
        ++ (if port.PortType = ['u', 'd', 'p'] then [['u', 'd', 'p']] else []) ∧
      s.IP = resolvedHostIP h f port := by
  have hlen : ¬ (port.Container.Name.length < 1) := by
    cases hn : port.Container.Name with
    | nil => exact absurd hn hname
    | cons x xs => simp
  unfold NewService
  simp only [hign, ne_eq, not_true_eq_false, if_false]
  rw [if_neg hlen]
  refine ⟨_, rfl, rfl, ?_, ?_, rfl⟩
  · by_cases hu : port.PortType = ['u', 'd', 'p'] <;> simp [hu]
  · by_cases hu : port.PortType = ['u', 'd', 'p'] <;> simp [hu]

/-- C5 as stated fails: the two port mappings `53/tcp` and `53/udp` of one container have
distinct keys, both are built with `isgroup = true` and without `name` metadata, and both
services get the default name `dns-53`. -/
theorem C5_counterexample :
    "53/tcp".toList ≠ "53/udp".toList ∧
    candidates flagsOff dnsBoth
      = Except.ok [internalPort dnsBoth "53".toList "tcp".toList,
                   internalPort dnsBoth "53".toList "udp".toList] ∧
    serviceMetaData dnsBoth.Config.Env "53".toList ['n', 'a', 'm', 'e'] = none ∧
    ∃ s1 s2,
      NewService exampleHost flagsOff (internalPort dnsBoth "53".toList "tcp".toList) true
        = Except.ok (some s1) ∧
      NewService exampleHost flagsOff (internalPort dnsBoth "53".toList "udp".toList) true
        = Except.ok (some s2) ∧
      s1.Name = "dns-53".toList ∧ s2.Name = "dns-53".toList := by
  refine ⟨by decide, rfl, by decide, _, _, rfl, rfl, ?_, ?_⟩
  · decide
  · decide

/-- C5, amended: two candidates of one container whose exposed ports differ, both built with
`isgroup = true`, neither suppressed and neither with `name` metadata, yield services whose
names are the default names `<image base>-<exposed port>`, and these differ. -/
theorem C5_default_names_differ (h : Host) (f : Flags) (port1 port2 : PublishedPort)
    (hc : port1.Container = port2.Container)
    (hexp : port1.ExposedPort ≠ port2.ExposedPort)
    (hname : port1.Container.Name ≠ [])
    (hign1 : mapdefault (serviceMetaData port1.Container.Config.Env port1.ExposedPort)
      ['i', 'g', 'n', 'o', 'r', 'e'] [] = [])
    (hign2 : mapdefault (serviceMetaData port2.Container.Config.Env port2.ExposedPort)
      ['i', 'g', 'n', 'o', 'r', 'e'] [] = [])
    (hn1 : serviceMetaData port1.Container.Config.Env port1.ExposedPort
      ['n', 'a', 'm', 'e'] = none)
    (hn2 : serviceMetaData port2.Container.Config.Env port2.ExposedPort
      ['n', 'a', 'm', 'e'] = none) :
    ∃ s1 s2, NewService h f port1 true = Except.ok (some s1) ∧
      NewService h f port2 true = Except.ok (some s2) ∧
      s1.Name = (Split ':' (Base port1.Container.Config.Image)).headD [] ++ ['-']
        ++ port1.ExposedPort ∧
      s2.Name = (Split ':' (Base port1.Container.Config.Image)).headD [] ++ ['-']
        ++ port2.ExposedPort ∧
      s1.Name ≠ s2.Name := by
  obtain ⟨s1, hs1, hname1, -, -, -⟩ := NewService_built h f port1 true hname hign1
  obtain ⟨s2, hs2, hname2, -, -, -⟩ := NewService_built h f port2 true (hc ▸ hname) hign2
  have e1 : s1.Name = (Split ':' (Base port1.Container.Config.Image)).headD [] ++ ['-']
      ++ port1.ExposedPort := by
    rw [hname1]
    simp [mapdefault, hn1, defaultName]
  have e2 : s2.Name = (Split ':' (Base port1.Container.Config.Image)).headD [] ++ ['-']
      ++ port2.ExposedPort := by
    rw [hname2, hc]
    simp [mapdefault, hn2, defaultName]
  refine ⟨s1, s2, hs1, hs2, e1, e2, ?_⟩
  rw [e1, e2]
  intro heq
  exact hexp (List.append_cancel_left heq)

/-- Witness for C5, amended: the internal candidates of `dnsBoth` for ports 53 and 5353. -/
theorem C5_default_names_differ_witness :
    ∃ s1 s2,
      NewService exampleHost flagsOff (internalPort dnsBoth "53".toList "udp".toList) true
        = Except.ok (some s1) ∧
      NewService exampleHost flagsOff (internalPort dnsBoth "5353".toList "udp".toList) true
        = Except.ok (some s2) ∧
      s1.Name = (Split ':' (Base
          (internalPort dnsBoth "53".toList "udp".toList).Container.Config.Image)).headD []
        ++ ['-'] ++ (internalPort dnsBoth "53".toList "udp".toList).ExposedPort ∧
      s2.Name = (Split ':' (Base
          (internalPort dnsBoth "53".toList "udp".toList).Container.Config.Image)).headD []
        ++ ['-'] ++ (internalPort dnsBoth "5353".toList "udp".toList).ExposedPort ∧
      s1.Name ≠ s2.Name :=
  C5_default_names_differ exampleHost flagsOff
    (internalPort dnsBoth "53".toList "udp".toList)
    (internalPort dnsBoth "5353".toList "udp".toList)
    rfl (by decide) (by decide) (by decide) (by decide) (by decide) (by decide)

/-! ### The candidate list -/

theorem Split_no_sep (sep : Char) (s : Str) (h : ∀ c ∈ s, c ≠ sep) : Split sep s = [s] := by
  induction s with
  | nil => rfl
  | cons x xs ih =>
    have hx : x ≠ sep := h x (List.mem_cons_self x xs)
    have hxs : ∀ c ∈ xs, c ≠ sep := fun c hc => h c (List.mem_cons_of_mem x hc)
    simp [Split, hx, ih hxs]

theorem Split_append (sep : Char) (a b : Str) (h : ∀ c ∈ a, c ≠ sep) :
    Split sep (a ++ sep :: b) = a :: Split sep b := by
  induction a with
  | nil => simp [Split]
  | cons x xs ih =>
    have hx : x ≠ sep := h x (List.mem_cons_self x xs)
    have hxs : ∀ c ∈ xs, c ≠ sep := fun c hc => h c (List.mem_cons_of_mem x hc)
    simp [Split, hx, ih hxs]

/-- A key `n/proto` splits into the port `n` and the transport `proto`. -/
theorem Split_port_key (n proto : Str) (hn : ∀ c ∈ n, c ≠ '/') (hp : ∀ c ∈ proto, c ≠ '/') :
    Split '/' (n ++ ['/'] ++ proto) = [n, proto] := by
  have h : n ++ ['/'] ++ proto = n ++ '/' :: proto := by simp
  rw [h, Split_append '/' n proto hn, Split_no_sep '/' proto hp]

/-- One step of the candidate loop on a key `n/proto` appends what the decision table
yields. -/
theorem candidateStep_table (f : Flags) (container : Container) (ports : List PublishedPort)
    (n proto : Str) (published : List PortBinding)
    (hn : ∀ c ∈ n, c ≠ '/') (hp : ∀ c ∈ proto, c ≠ '/') :
    candidateStep f container ports (n ++ ['/'] ++ proto, published)
      = Except.ok (ports ++ (decisionTable f container n proto published).toList) := by
  unfold candidateStep decisionTable
  simp only [Split_port_key n proto hn hp]
  cases published with
  | nil =>
    cases hi : f.registerInternalAddress <;> cases he : f.registerExposedPorts <;> simp
  | cons binding more =>
    cases hi : f.registerInternalAddress <;> cases he : f.registerExposedPorts <;> simp

theorem candidateLoop_table (f : Flags) (container : Container)
    (entries : List (Str × Str × List PortBinding))
    (hkeys : ∀ e ∈ entries, (∀ c ∈ e.1, c ≠ '/') ∧ (∀ c ∈ e.2.1, c ≠ '/')) :
    ∀ ports : List PublishedPort,
      candidateLoop f container
          (entries.map (fun e => (e.1 ++ ['/'] ++ e.2.1, e.2.2))) ports
        = Except.ok (ports ++
            entries.filterMap (fun e => decisionTable f container e.1 e.2.1 e.2.2)) := by
  induction entries with
  | nil => intro ports; simp [candidateLoop]
  | cons e rest ih =>
    intro ports
    have he := hkeys e (List.mem_cons_self e rest)
    have hrest : ∀ e1 ∈ rest, (∀ c ∈ e1.1, c ≠ '/') ∧ (∀ c ∈ e1.2.1, c ≠ '/') :=
      fun e1 h1 => hkeys e1 (List.mem_cons_of_mem e h1)
    rw [List.map_cons, candidateLoop, candidateStep_table f container ports e.1 e.2.1 e.2.2
      he.1 he.2]
    simp only
    rw [ih hrest]
    cases hd : decisionTable f container e.1 e.2.1 e.2.2 with
    | none => simp [List.filterMap_cons, hd]
    | some pp => simp [List.filterMap_cons, hd]

/-- C6: for a container snapshot whose port keys have the form `n/proto`, the candidate list
that `Add` builds is, in the order in which the port map is visited, what the decision table
yields for each port: the first host binding's IP and port with exposed port `n` and type
`proto` when the port has a binding and `registerInternalAddress` is off; the container's
internal IP with `n` as host port and exposed port when it has a binding and
`registerInternalAddress` is on, or has no binding and `registerExposedPorts` is off; no
candidate when it has no binding and `registerExposedPorts` is on. -/
theorem C6_candidates_follow_table (f : Flags) (container : Container)
    (entries : List (Str × Str × List PortBinding))
    (hkeys : ∀ e ∈ entries, (∀ c ∈ e.1, c ≠ '/') ∧ (∀ c ∈ e.2.1, c ≠ '/'))
    (hports : container.NetworkSettings.Ports
      = entries.map (fun e => (e.1 ++ ['/'] ++ e.2.1, e.2.2))) :
    candidates f container
      = Except.ok (entries.filterMap (fun e => decisionTable f container e.1 e.2.1 e.2.2)) := by
  unfold candidates
  rw [hports, candidateLoop_table f container entries hkeys []]
  simp

/-- Witness for C6: the two unpublished ports of `dnsBoth` with both flags off. -/
theorem C6_candidates_follow_table_witness :
    candidates flagsOff dnsBoth
      = Except.ok ([("53".toList, "tcp".toList, []), ("53".toList, "udp".toList, [])].filterMap
          (fun e => decisionTable flagsOff dnsBoth e.1 e.2.1 e.2.2)) :=
  C6_candidates_follow_table flagsOff dnsBoth
    [("53".toList, "tcp".toList, []), ("53".toList, "udp".toList, [])]
    (by decide) rfl

/-! ### The loops of Add and Remove -/

/-- After the second loop of `Add`, the entry of the container is its entry before the loop
followed by the services whose registration succeeded, in call order. -/
theorem addLoop_entry {ρ : Type} (h : Host) (f : Flags) (R : ServiceRegistry ρ)
    (container : Container) (isgroup : Bool) (ports : List PublishedPort) :
    ∀ b : RegistryBridge ρ,
      ((addLoop h f R container isgroup ports b).bridge.services container.ID).getD []
        = (b.services container.ID).getD []
          ++ ((addLoop h f R container isgroup ports b).calls.filter Prod.snd).map Prod.fst := by
  induction ports with
  | nil => intro b; simp [addLoop]
  | cons port rest ih =>
    intro b
    unfold addLoop
    cases hns : NewService h f port isgroup with
    | error e => simp
    | ok o =>
      cases o with
      | none =>
        simp only
        split_ifs
        · simp
        · exact ih b
      | some service =>
        simp only
        split_ifs with hreg hlen
        · simp only [Run.after, List.filter_cons, hreg]
          simpa using ih { b with registry := (R.Register b.registry service).1 }
        · simp [GoMap.set]
        · have hreg1 : (R.Register b.registry service).2 = true := by
            simpa using hreg
          simp only [Run.after, List.filter_cons, hreg1, if_true, List.map_cons]
          rw [ih]
          simp [GoMap.set]

/-- A run of the second loop of `Add` that does not panic and registers at least one
service has sliced `container.ID[:12]`, so the identifier has at least 12 characters. -/
theorem addLoop_no_panic_length {ρ : Type} (h : Host) (f : Flags) (R : ServiceRegistry ρ)
    (container : Container) (isgroup : Bool) (ports : List PublishedPort) :
    ∀ b : RegistryBridge ρ,
      (addLoop h f R container isgroup ports b).panicked = false →
      ((addLoop h f R container isgroup ports b).calls.filter Prod.snd).map Prod.fst ≠ [] →
      12 ≤ container.ID.length := by
  induction ports with
  | nil => intro b _ hne; simp [addLoop] at hne
  | cons port rest ih =>
    intro b
    unfold addLoop
    cases hns : NewService h f port isgroup with
    | error e => simp
    | ok o =>
      cases o with
      | none =>
        simp only
        split_ifs
        · simp
        · exact ih b
      | some service =>
        simp only
        split_ifs with hreg hlen
        · simp only [Run.after, List.filter_cons, hreg]
          simpa using ih { b with registry := (R.Register b.registry service).1 }
        · simp
        · intro _ _
          omega

/-- The loop of `Remove` never changes the map of services. -/
theorem removeLoop_services {ρ : Type} (R : ServiceRegistry ρ) (c : Str)
    (services : List Service) :
    ∀ b : RegistryBridge ρ, (removeLoop R c services b).bridge.services = b.services := by
  induction services with
  | nil => intro b; rfl
  | cons service rest ih =>
    intro b
    unfold removeLoop
    simp only
    split_ifs
    · simp [Run.after, ih]
    · rfl
    · simp [Run.after, ih]

/-- For an identifier of at least 12 characters, the loop of `Remove` does not panic and
calls the retry-wrapped `Deregister` once on every service of the list, in order. -/
theorem removeLoop_long_id {ρ : Type} (R : ServiceRegistry ρ) (c : Str)
    (hc : 12 ≤ c.length) (services : List Service) :
    ∀ b : RegistryBridge ρ,
      (removeLoop R c services b).panicked = false ∧
      (removeLoop R c services b).calls.map Prod.fst = services := by
  induction services with
  | nil => intro b; exact ⟨rfl, rfl⟩
  | cons service rest ih =>
    intro b
    unfold removeLoop
    simp only
    split_ifs with hreg hlen
    · simp [Run.after, ih]
    · omega
    · simp [Run.after, ih]

/-- `Remove` for an identifier of at least 12 characters: no panic, one retry-wrapped
`Deregister` per recorded service in recorded order whatever the outcomes, no entry for the
identifier afterwards, every other entry unchanged. -/
theorem Remove_long_id {ρ : Type} (R : ServiceRegistry ρ) (b : RegistryBridge ρ) (c : Str)
    (hc : 12 ≤ c.length) :
    (Remove R b c).panicked = false ∧
    (Remove R b c).calls.map Prod.fst = (b.services c).getD [] ∧
    (Remove R b c).bridge.services c = none ∧
    ∀ k, k ≠ c → (Remove R b c).bridge.services k = b.services k := by
  have h1 := removeLoop_long_id R c hc ((b.services c).getD []) b
  have h2 := removeLoop_services R c ((b.services c).getD []) b
  unfold Remove
  simp only [h1.1, Bool.false_eq_true, if_false]
  refine ⟨trivial, h1.2, by simp [GoMap.delete], ?_⟩
  intro k hk
  simp [GoMap.delete, hk, h2]

/-- `Remove` for an identifier without recorded services changes nothing but the (absent)
entry. -/
theorem Remove_no_services {ρ : Type} (R : ServiceRegistry ρ) (b : RegistryBridge ρ) (c : Str)
    (hb : (b.services c).getD [] = []) :
    (Remove R b c).panicked = false ∧ (Remove R b c).calls = [] ∧
    (Remove R b c).bridge.registry = b.registry ∧
    (Remove R b c).bridge.services = b.services.delete c := by
  unfold Remove
  simp [hb, removeLoop]

/-- C7 as stated fails: with `registerExposedPorts = true` the unpublished port `53/udp`
yields no candidate, and `Add` registers nothing and stores nothing. -/
theorem C7_counterexample :
    candidates flagsExposed dnsUdp = Except.ok [] ∧
    (Add exampleHost flagsExposed (fun _ => some dnsUdp) alwaysOk emptyBridge dnsUdp.ID).calls.length
      = 0 ∧
    ((Add exampleHost flagsExposed (fun _ => some dnsUdp) alwaysOk emptyBridge
      dnsUdp.ID).bridge.services dnsUdp.ID).isNone = true := by
  refine ⟨rfl, ?_, ?_⟩
  · decide
  · decide

/-- C7, amended: with `registerExposedPorts = false`, a container with a non-empty name and
without `ignore` and `id` metadata whose only port `53/udp` has no host binding and whose
internal IP is `172.17.0.2` yields the single candidate with internal addressing (host IP
`172.17.0.2`, host port `53`), and `Add` issues exactly one registration, of a service whose
ID ends in `:udp` and whose tags include `udp`. -/
theorem C7_unpublished_udp_internal {ρ : Type} (h : Host) (f : Flags)
    (docker : Str → Option Container) (R : ServiceRegistry ρ) (b : RegistryBridge ρ)
    (containerId : Str) (c : Container)
    (hflag : f.registerExposedPorts = false)
    (hinspect : docker containerId = some c)
    (hports : c.NetworkSettings.Ports = [("53/udp".toList, [])])
    (hip : c.NetworkSettings.IPAddress = "172.17.0.2".toList)
    (hname : c.Name ≠ [])
    (hign : mapdefault (serviceMetaData c.Config.Env "53".toList)
      ['i', 'g', 'n', 'o', 'r', 'e'] [] = [])
    (hid : mapdefault (serviceMetaData c.Config.Env "53".toList) ['i', 'd'] [] = []) :
    candidates f c
      = Except.ok [{ HostPort := "53".toList, HostIP := "172.17.0.2".toList,
                     ExposedPort := "53".toList, PortType := "udp".toList,
                     Container := c }] ∧
    ∃ s, (Add h f docker R b containerId).calls = [(s, (R.Register b.registry s).2)] ∧
      [':', 'u', 'd', 'p'] <:+ s.ID ∧ ['u', 'd', 'p'] ∈ s.Tags := by
  have hudp : "udp".toList = ['u', 'd', 'p'] := rfl
  have hcand : candidates f c
      = Except.ok [{ HostPort := "53".toList, HostIP := "172.17.0.2".toList,
                     ExposedPort := "53".toList, PortType := "udp".toList,
                     Container := c }] := by
    have hp : c.NetworkSettings.Ports
        = [("53".toList, "udp".toList, ([] : List PortBinding))].map
            (fun e => (e.1 ++ ['/'] ++ e.2.1, e.2.2)) := by
      rw [hports]; rfl
    unfold candidates
    rw [hp, candidateLoop_table f c _ (by decide) []]
    simp [decisionTable, hflag, hip]
  refine ⟨hcand, ?_⟩
  obtain ⟨s, hs, -, hsid, hstags, -⟩ := NewService_built h f
    { HostPort := "53".toList, HostIP := "172.17.0.2".toList, ExposedPort := "53".toList,
      PortType := "udp".toList, Container := c } false hname hign
  refine ⟨s, ?_, ?_, ?_⟩
  · unfold Add
    rw [hinspect]
    have hd : decide (1 > 1) = false := rfl
    simp only [hcand, List.length_singleton]
    rw [hd, if_neg Nat.one_ne_zero]
    unfold addLoop
    rw [hs]
    simp only
    split_ifs with hreg hlen
    · simp [Run.after, addLoop, hreg]
    · have hreg1 : (R.Register b.registry s).2 = true := by simpa using hreg
      simp [hreg1]
    · have hreg1 : (R.Register b.registry s).2 = true := by simpa using hreg
      simp [Run.after, addLoop, hreg1]
  · rw [hsid]
    simp only [hid, hudp, ne_eq, not_true_eq_false, if_false, if_true]
    exact List.suffix_append _ _
  · rw [hstags]
    simp [hudp]

/-- Witness for C7, amended: the container `dnsUdp` with both flags off. -/
theorem C7_unpublished_udp_internal_witness :
    candidates flagsOff dnsUdp
      = Except.ok [{ HostPort := "53".toList, HostIP := "172.17.0.2".toList,
                     ExposedPort := "53".toList, PortType := "udp".toList,
                     Container := dnsUdp }] ∧
    ∃ s, (Add exampleHost flagsOff (fun _ => some dnsUdp) alwaysOk emptyBridge dnsUdp.ID).calls
        = [(s, (alwaysOk.Register emptyBridge.registry s).2)] ∧
      [':', 'u', 'd', 'p'] <:+ s.ID ∧ ['u', 'd', 'p'] ∈ s.Tags :=
  C7_unpublished_udp_internal exampleHost flagsOff (fun _ => some dnsUdp) alwaysOk emptyBridge
    dnsUdp.ID dnsUdp rfl rfl rfl rfl (by decide) (by decide) (by decide)

/-- `Remove` for an identifier that either has no recorded services or has at least 12
characters: no panic, one retry-wrapped `Deregister` per recorded service in recorded
order, and no entry for the identifier afterwards. -/
theorem Remove_complete {ρ : Type} (R : ServiceRegistry ρ) (b : RegistryBridge ρ) (c : Str)
    (hc : (b.services c).getD [] = [] ∨ 12 ≤ c.length) :
    (Remove R b c).panicked = false ∧
    (Remove R b c).calls.map Prod.fst = (b.services c).getD [] ∧
    (Remove R b c).bridge.services c = none := by
  rcases hc with h0 | h12
  · obtain ⟨hp, hcalls, -, hs⟩ := Remove_no_services R b c h0
    refine ⟨hp, by rw [hcalls, h0]; rfl, ?_⟩
    rw [hs]
    simp [GoMap.delete]
  · obtain ⟨hp, hcalls, hs, -⟩ := Remove_long_id R b c h12
    exact ⟨hp, hcalls, hs⟩

/-- After an `Add` that returns normally, for an identifier without entry whose snapshot
carries that identifier: the entry of the identifier holds the successfully registered
services in call order, and when there is one the identifier has at least 12 characters. -/
theorem Add_entry {ρ : Type} (h : Host) (f : Flags) (docker : Str → Option Container)
    (R : ServiceRegistry ρ) (b : RegistryBridge ρ) (c : Str)
    (hb : b.services c = none)
    (hid : ∀ container, docker c = some container → container.ID = c)
    (hadd : (Add h f docker R b c).panicked = false) :
    ((Add h f docker R b c).bridge.services c).getD []
      = ((Add h f docker R b c).calls.filter Prod.snd).map Prod.fst ∧
    (((Add h f docker R b c).calls.filter Prod.snd).map Prod.fst = [] ∨ 12 ≤ c.length) := by
  unfold Add at hadd ⊢
  cases hd : docker c with
  | none => simp [hb]
  | some container =>
    have hcid : container.ID = c := hid container hd
    rw [hd] at hadd
    simp only at hadd ⊢
    cases hcand : candidates f container with
    | error e =>
      rw [hcand] at hadd
      simp at hadd
    | ok ports =>
      rw [hcand] at hadd
      simp only at hadd ⊢
      by_cases h0 : ports.length = 0
      · simp [h0, hb]
      · rw [if_neg h0] at hadd ⊢
        have hentry := addLoop_entry h f R container (decide (ports.length > 1)) ports b
        have hlen := addLoop_no_panic_length h f R container (decide (ports.length > 1))
          ports b hadd
        rw [hcid] at hentry hlen
        rw [hb] at hentry
        refine ⟨by simpa using hentry, ?_⟩
        by_cases hs : ((addLoop h f R container (decide (ports.length > 1)) ports b).calls.filter
            Prod.snd).map Prod.fst = []
        · exact Or.inl hs
        · exact Or.inr (hlen hs)

/-- C8 as stated fails: `Add` stores the services under the identifier of the snapshot, so
when inspection of `web-container-01` returns a snapshot with another identifier, `Add`
registers one service and the following `Remove` of `web-container-01` issues no
deregistration and leaves the service in the bridge state. -/
theorem C8_counterexample :
    emptyBridge.services "web-container-01".toList = none ∧
    (Add exampleHost flagsOff (fun _ => some dnsUdp) alwaysOk emptyBridge
      "web-container-01".toList).panicked = false ∧
    ((Add exampleHost flagsOff (fun _ => some dnsUdp) alwaysOk emptyBridge
      "web-container-01".toList).calls.filter Prod.snd).length = 1 ∧
    (Remove alwaysOk
      (Add exampleHost flagsOff (fun _ => some dnsUdp) alwaysOk emptyBridge
        "web-container-01".toList).bridge
      "web-container-01".toList).calls.length = 0 ∧
    ((Remove alwaysOk
      (Add exampleHost flagsOff (fun _ => some dnsUdp) alwaysOk emptyBridge
        "web-container-01".toList).bridge
      "web-container-01".toList).bridge.services dnsUdp.ID).isSome = true := by
  refine ⟨rfl, ?_, ?_, ?_, ?_⟩ <;> decide

/-- C8, amended: starting from a bridge state without entry for `c`, when inspection of `c`
fails or returns a snapshot whose identifier is `c`, and `Add(c)` returns without a runtime
failure, then `Remove(c)` returns without a runtime failure, the state has no entry for `c`
afterwards, and `Remove` issued exactly one deregistration call for each service whose
registration by `Add` succeeded, in the same order, and none for any other service. -/
theorem C8_add_then_remove {ρ : Type} (h : Host) (f : Flags) (docker : Str → Option Container)
    (R : ServiceRegistry ρ) (b : RegistryBridge ρ) (c : Str)
    (hb : b.services c = none)
    (hid : ∀ container, docker c = some container → container.ID = c)
    (hadd : (Add h f docker R b c).panicked = false) :
    (Remove R (Add h f docker R b c).bridge c).panicked = false ∧
    (Remove R (Add h f docker R b c).bridge c).bridge.services c = none ∧
    (Remove R (Add h f docker R b c).bridge c).calls.map Prod.fst
      = ((Add h f docker R b c).calls.filter Prod.snd).map Prod.fst := by
  obtain ⟨hentry, hlen⟩ := Add_entry h f docker R b c hb hid hadd
  obtain ⟨hp, hcalls, hs⟩ := Remove_complete R (Add h f docker R b c).bridge c
    (by rw [hentry]; exact hlen)
  exact ⟨hp, hs, by rw [hcalls, hentry]⟩

/-- Witness for C8, amended: `dnsUdp` added under its own identifier, then removed. -/
theorem C8_add_then_remove_witness :
    (Remove alwaysOk (Add exampleHost flagsOff (fun _ => some dnsUdp) alwaysOk emptyBridge
      dnsUdp.ID).bridge dnsUdp.ID).panicked = false ∧
    (Remove alwaysOk (Add exampleHost flagsOff (fun _ => some dnsUdp) alwaysOk emptyBridge
      dnsUdp.ID).bridge dnsUdp.ID).bridge.services dnsUdp.ID = none ∧
    (Remove alwaysOk (Add exampleHost flagsOff (fun _ => some dnsUdp) alwaysOk emptyBridge
      dnsUdp.ID).bridge dnsUdp.ID).calls.map Prod.fst
      = ((Add exampleHost flagsOff (fun _ => some dnsUdp) alwaysOk emptyBridge
          dnsUdp.ID).calls.filter Prod.snd).map Prod.fst :=
  C8_add_then_remove exampleHost flagsOff (fun _ => some dnsUdp) alwaysOk emptyBridge dnsUdp.ID
    rfl (fun container hc => by injection hc with hc; rw [← hc]) (by decide)

/-- C9: `Remove` of an identifier that has no entry in the bridge state, of any length,
issues no deregistration call, does not panic, and leaves the bridge state as it was. -/
theorem C9_remove_absent {ρ : Type} (R : ServiceRegistry ρ) (b : RegistryBridge ρ) (c : Str)
    (hb : b.services c = none) :
    (Remove R b c).calls = [] ∧ (Remove R b c).panicked = false ∧
    (Remove R b c).bridge = b := by
  obtain ⟨hp, hcalls, hr, hs⟩ := Remove_no_services R b c (by rw [hb]; rfl)
  have hdel : b.services.delete c = b.services := by
    funext k
    unfold GoMap.delete
    by_cases hk : k = c
    · simp [hk, hb]
    · simp [hk]
  refine ⟨hcalls, hp, ?_⟩
  calc (Remove R b c).bridge
      = { registry := (Remove R b c).bridge.registry,
          services := (Remove R b c).bridge.services } := rfl
    _ = { registry := b.registry, services := b.services } := by rw [hr, hs, hdel]
    _ = b := rfl

/-- Witness for C9: the three-character identifier `abc` on a bridge that holds nothing. -/
theorem C9_remove_absent_witness :
    (Remove alwaysOk emptyBridge "abc".toList).calls = [] ∧
    (Remove alwaysOk emptyBridge "abc".toList).panicked = false ∧
    (Remove alwaysOk emptyBridge "abc".toList).bridge = emptyBridge :=
  C9_remove_absent alwaysOk emptyBridge "abc".toList rfl


/-! ### Order of the variables -/

theorem GoMap.overwrite_set {β : Type} (m1 m2 : GoMap β) (k : Str) (v : β) :
    m1.overwrite (m2.set k v) = (m1.overwrite m2).set k v := by
  funext x
  unfold GoMap.overwrite GoMap.set
  by_cases hx : x = k <;> simp [hx]

theorem GoMap.overwrite_empty {β : Type} (m : GoMap β) : m.overwrite GoMap.empty = m := by
  funext x
  simp [GoMap.overwrite, GoMap.empty]

/-- A step of `serviceMetaData` acts on the mapping built from the variables seen so far
only; what was in the mapping before shows through wherever the step does not write. -/
theorem metaDataStep_overwrite (p kv : Str) (m m1 : GoMap Str) :
    metaDataStep p (m.overwrite m1) kv = m.overwrite (metaDataStep p m1 kv) := by
  unfold metaDataStep
  simp only
  split_ifs
  · rfl
  · rw [GoMap.overwrite_set]
  · rw [GoMap.overwrite_set]
  · rfl

theorem foldl_metaDataStep_overwrite (p : Str) (env : List Str) :
    ∀ m m1 : GoMap Str,
      env.foldl (metaDataStep p) (m.overwrite m1)
        = m.overwrite (env.foldl (metaDataStep p) m1) := by
  induction env with
  | nil => intro m m1; rfl
  | cons kv rest ih =>
    intro m m1
    simp only [List.foldl_cons]
    rw [metaDataStep_overwrite, ih]

/-- C16: the later variable wins.  The mapping of `a ++ b` is the mapping of `a` overwritten
by the mapping of `b`; in particular a global `SERVICE_NAME=x` placed after
`SERVICE_<p>_NAME=y` makes the mapping for port `p` send `name` to `x`. -/
theorem C16_later_variable_wins (a b env : List Str) (p x y : Str) :
    serviceMetaData (a ++ b) p
      = (serviceMetaData a p).overwrite (serviceMetaData b p) ∧
    serviceMetaData
        (env ++ [servicePrefix ++ p ++ "_NAME=".toList ++ y,
                 servicePrefix ++ "NAME=".toList ++ x]) p "name".toList
      = some x := by
  constructor
  · unfold serviceMetaData
    rw [List.foldl_append]
    have h := foldl_metaDataStep_overwrite p b (a.foldl (metaDataStep p) GoMap.empty)
      GoMap.empty
    rw [GoMap.overwrite_empty] at h
    exact h
  · have hkv : servicePrefix ++ "NAME=".toList ++ x
        = servicePrefix ++ ("NAME".toList ++ '=' :: x) := by
      simp
    unfold serviceMetaData
    rw [List.foldl_append, List.foldl_cons, List.foldl_cons, List.foldl_nil, hkv,
      metaDataStep_global p "NAME".toList x _ (by decide) (by decide)]
    have hl : ToLower "NAME".toList = "name".toList := by decide
    rw [hl]
    simp [GoMap.set]

/-- A variable `SERVICE_<name>=<value>` whose lower-cased name is `<q>_<rest>` with `<q>`
accepted by `Atoi` is skipped when `<q>` is not the port, and stores its value under
`<rest>` when it is. -/
theorem metaDataStep_port_scoped (p name value q rest : Str) (m : GoMap Str)
    (hname : ∀ c ∈ name, c ≠ '=')
    (hkey : ToLower name = q ++ '_' :: rest)
    (hq : (Atoi q).2 = none) :
    metaDataStep p m (servicePrefix ++ (name ++ '=' :: value))
      = if q ≠ p then m else m.set rest value := by
  obtain ⟨hq_us, -, -⟩ := Atoi_ok_chars q hq
  have hpre : ∀ c ∈ servicePrefix ++ name, c ≠ '=' := by
    intro c hc
    rcases List.mem_append.mp hc with h1 | h1
    · exact servicePrefix_no_eq c h1
    · exact hname c h1
  have hkv : servicePrefix ++ (name ++ '=' :: value) = (servicePrefix ++ name) ++ '=' :: value := by
    simp
  have hsplit := SplitN2_append '=' (servicePrefix ++ name) value hpre
  have hsplit2 := SplitN2_append '_' q rest hq_us
  unfold metaDataStep
  simp only [hkv, hsplit, List.headD_cons, HasPrefix_append, TrimPrefix_append, hkey, hsplit2]
  simp [hq]

/-- C17 as stated fails: the key of `SERVICE_443=x` has no `_` and parses as an integer
other than the port 80, yet the variable is not skipped: it is stored under the key `443`,
so the mapping differs from the one without the variable. -/
theorem C17_counterexample :
    (∀ c ∈ ToLower "443".toList, c ≠ '_') ∧
    (Atoi (ToLower "443".toList)).2 = none ∧
    "443".toList ≠ "80".toList ∧
    serviceMetaData ["SERVICE_443=x".toList] "80".toList "443".toList = some "x".toList ∧
    serviceMetaData ["SERVICE_443=x".toList] "80".toList ≠ serviceMetaData [] "80".toList := by
  refine ⟨by decide, by decide, by decide, by decide, ?_⟩
  intro h
  have h1 := congrFun h "443".toList
  revert h1
  decide

/-- C17, amended: a variable `SERVICE_<name>=<value>` (the name is the text before the first
`=`) is port-scoped when its lower-cased name contains a `_` and the text `<q>` before the
first `_` parses as an integer.  When `<q>` is not the port `p` the variable is skipped
entirely: the mapping is the one of the list without it.  When `<q>` is `p`, the variable,
placed last, stores its value under the text after that first `_`. -/
theorem C17_port_scoped_with_underscore (p name value q rest : Str)
    (hname : ∀ c ∈ name, c ≠ '=')
    (hkey : ToLower name = q ++ '_' :: rest)
    (hq : (Atoi q).2 = none) :
    (q ≠ p → ∀ env1 env2 : List Str,
      serviceMetaData (env1 ++ [servicePrefix ++ name ++ ['='] ++ value] ++ env2) p
        = serviceMetaData (env1 ++ env2) p) ∧
    (q = p → ∀ env : List Str,
      serviceMetaData (env ++ [servicePrefix ++ name ++ ['='] ++ value]) p
        = (serviceMetaData env p).set rest value) := by
  have hkv : servicePrefix ++ name ++ ['='] ++ value
      = servicePrefix ++ (name ++ '=' :: value) := by
    simp
  have hstep := fun m => metaDataStep_port_scoped p name value q rest m hname hkey hq
  constructor
  · intro hne env1 env2
    unfold serviceMetaData
    simp only [List.foldl_append, List.foldl_cons, List.foldl_nil, hkv, hstep, hne, ne_eq,
      not_false_eq_true, if_true]
  · intro heq env
    unfold serviceMetaData
    simp only [List.foldl_append, List.foldl_cons, List.foldl_nil, hkv, hstep, heq, ne_eq,
      not_true_eq_false, if_false]

/-- Witness for C17, amended: `SERVICE_443_Name=web` parsed for port 80 and for port 443. -/
theorem C17_port_scoped_with_underscore_witness :
    (∀ env1 env2 : List Str,
      serviceMetaData (env1 ++ [servicePrefix ++ "443_Name".toList ++ ['='] ++ "web".toList]
          ++ env2) "80".toList
        = serviceMetaData (env1 ++ env2) "80".toList) ∧
    (∀ env : List Str,
      serviceMetaData (env ++ [servicePrefix ++ "443_Name".toList ++ ['='] ++ "web".toList])
          "443".toList
        = (serviceMetaData env "443".toList).set "name".toList "web".toList) :=
  ⟨(C17_port_scoped_with_underscore "80".toList "443_Name".toList "web".toList "443".toList
      "name".toList (by decide) (by decide) (by decide)).1 (by decide),
   (C17_port_scoped_with_underscore "443".toList "443_Name".toList "web".toList "443".toList
      "name".toList (by decide) (by decide) (by decide)).2 rfl⟩

/-! ### The fields of a service -/

/-- What `NewService` returns when it returns a service. -/
theorem NewService_some (h : Host) (f : Flags) (port : PublishedPort) (isgroup : Bool)
    (s : Service) (hs : NewService h f port isgroup = Except.ok (some s)) :
    port.Container.Name ≠ [] ∧
    s.IP = resolvedHostIP h f port ∧
    s.pp = { port with HostIP := resolvedHostIP h f port } ∧
    s.Tags = (if mapdefault (serviceMetaData port.Container.Config.Env port.ExposedPort)
            ['t', 'a', 'g', 's'] [] ≠ [] then
          Split ',' (mapdefault (serviceMetaData port.Container.Config.Env port.ExposedPort)
            ['t', 'a', 'g', 's'] [])
        else [])
        ++ (if port.PortType = ['u', 'd', 'p'] then [['u', 'd', 'p']] else []) ∧
    s.ID = (if mapdefault (serviceMetaData port.Container.Config.Env port.ExposedPort)
            ['i', 'd'] [] ≠ [] then
          mapdefault (serviceMetaData port.Container.Config.Env port.ExposedPort) ['i', 'd'] []
        else resolvedHostname h port ++ [':'] ++ port.Container.Name.drop 1 ++ [':']
          ++ port.ExposedPort
          ++ (if port.PortType = ['u', 'd', 'p'] then [':', 'u', 'd', 'p'] else [])) := by
  unfold NewService at hs
  simp only at hs
  by_cases hign : mapdefault (serviceMetaData port.Container.Config.Env port.ExposedPort)
      ['i', 'g', 'n', 'o', 'r', 'e'] [] ≠ []
  · rw [if_pos hign] at hs
    simp at hs
  · rw [if_neg hign] at hs
    by_cases hlen : port.Container.Name.length < 1
    · rw [if_pos hlen] at hs
      simp at hs
    · rw [if_neg hlen] at hs
      have hname : port.Container.Name ≠ [] := by
        intro hn
        rw [hn] at hlen
        simp at hlen
      injection hs with hs
      injection hs with hs
      subst hs
      refine ⟨hname, rfl, rfl, ?_, ?_⟩
      · by_cases hu : port.PortType = ['u', 'd', 'p'] <;> simp [hu]
      · by_cases hu : port.PortType = ['u', 'd', 'p'] <;> simp [hu]

/-- C19: for a candidate that is not suppressed, `NewService` returns a service whenever
the container name is not empty, and the IP of the service it returns is the override
address when that is non-empty; otherwise the address the local host name resolves to, when
the host name lookup succeeds, the candidate's host IP is `0.0.0.0` and the resolution
succeeds; otherwise the candidate's host IP unchanged. -/
theorem C19_service_ip (h : Host) (f : Flags) (port : PublishedPort) (isgroup : Bool)
    (hign : serviceMetaData port.Container.Config.Env port.ExposedPort
        ['i', 'g', 'n', 'o', 'r', 'e'] = none ∨
      serviceMetaData port.Container.Config.Env port.ExposedPort
        ['i', 'g', 'n', 'o', 'r', 'e'] = some []) :
    (port.Container.Name ≠ [] → ∃ s, NewService h f port isgroup = Except.ok (some s)) ∧
    ∀ s, NewService h f port isgroup = Except.ok (some s) →
      (f.hostIp ≠ [] → s.IP = f.hostIp) ∧
      (f.hostIp = [] → ∀ name addr, h.Hostname = some name → port.HostIP = "0.0.0.0".toList →
        h.ResolveIPAddr name = some addr → s.IP = addr) ∧
      (f.hostIp = [] →
        (h.Hostname = none ∨ port.HostIP ≠ "0.0.0.0".toList ∨
          ∃ name, h.Hostname = some name ∧ h.ResolveIPAddr name = none) →
        s.IP = port.HostIP) := by
  have hz : "0.0.0.0".toList = ['0', '.', '0', '.', '0', '.', '0'] := rfl
  constructor
  · intro hname
    have hi : mapdefault (serviceMetaData port.Container.Config.Env port.ExposedPort)
        ['i', 'g', 'n', 'o', 'r', 'e'] [] = [] := by
      rcases hign with h1 | h1 <;> simp [mapdefault, h1]
    obtain ⟨s, hs, -⟩ := NewService_built h f port isgroup hname hi
    exact ⟨s, hs⟩
  · intro s hs
    obtain ⟨-, hip, -⟩ := NewService_some h f port isgroup s hs
    rw [hip, hz]
    refine ⟨?_, ?_, ?_⟩
    · intro ho
      simp [resolvedHostIP, ho]
    · intro ho name addr hn h0 hr
      simp [resolvedHostIP, ho, hn, h0, hr]
    · intro ho hcase
      rcases hcase with hn | h0 | ⟨name, hn, hr⟩
      · simp [resolvedHostIP, ho, hn]
      · cases hh : h.Hostname <;> simp [resolvedHostIP, ho, hh, h0]
      · by_cases h0 : port.HostIP = ['0', '.', '0', '.', '0', '.', '0'] <;>
          simp [resolvedHostIP, ho, hn, hr, h0]

/-- Witness for C19: the published port of `frontendWeb`, without override address. -/
theorem C19_service_ip_witness :
    ∃ s, NewService exampleHost flagsOff frontendWebPort false = Except.ok (some s) ∧
      s.IP = frontendWebPort.HostIP := by
  obtain ⟨hex, hip⟩ := C19_service_ip exampleHost flagsOff frontendWebPort false
    (Or.inl (by decide))
  obtain ⟨s, hs⟩ := hex (by decide)
  exact ⟨s, hs, (hip s hs).2.2 rfl (Or.inr (Or.inl (by decide)))⟩

theorem Split_ne_nil (sep : Char) (s : Str) : Split sep s ≠ [] := by
  cases s with
  | nil => simp [Split]
  | cons c cs =>
    unfold Split
    split_ifs
    · simp
    · cases Split sep cs <;> simp

/-- No piece of a split contains the separator. -/
theorem Split_pieces_no_sep (sep : Char) (s : Str) :
    ∀ piece ∈ Split sep s, ∀ c ∈ piece, c ≠ sep := by
  induction s with
  | nil => simp [Split]
  | cons x xs ih =>
    unfold Split
    by_cases hx : x = sep
    · rw [if_pos hx]
      intro piece hp
      rcases List.mem_cons.mp hp with h1 | h1
      · rw [h1]; simp
      · exact ih piece h1
    · rw [if_neg hx]
      cases hsp : Split sep xs with
      | nil => exact absurd hsp (Split_ne_nil sep xs)
      | cons first more =>
        rw [hsp] at ih
        intro piece hp
        rcases List.mem_cons.mp hp with h1 | h1
        · rw [h1]
          intro c hc
          rcases List.mem_cons.mp hc with h2 | h2
          · rw [h2]; exact hx
          · exact ih first (List.mem_cons_self first more) c h2
        · exact ih piece (List.mem_cons_of_mem first h1)

/-- Joining the pieces of a split with the separator gives the string back. -/
theorem Split_join (sep : Char) (s : Str) : [sep].intercalate (Split sep s) = s := by
  induction s with
  | nil => simp [Split, List.intercalate]
  | cons x xs ih =>
    unfold Split
    by_cases hx : x = sep
    · rw [if_pos hx]
      cases hsp : Split sep xs with
      | nil => exact absurd hsp (Split_ne_nil sep xs)
      | cons first more =>
        rw [hsp] at ih
        rw [← ih, hx]
        simp [List.intercalate, List.intersperse]
    · rw [if_neg hx]
      cases hsp : Split sep xs with
      | nil => exact absurd hsp (Split_ne_nil sep xs)
      | cons first more =>
        rw [hsp] at ih
        rw [← ih]
        cases more <;> simp [List.intercalate, List.intersperse]

/-- C20: the tags of the service `NewService` returns for a candidate that is not
suppressed are the pieces of the metadata `tags` value between its commas, in order (no
piece when `tags` is absent or empty), followed by the tag `udp` exactly when the transport
type is `udp`; and for `SERVICE_TAGS=prod,edge` on a tcp port the tags are `prod`, `edge`. -/
theorem C20_service_tags (h : Host) (f : Flags) (port : PublishedPort) (isgroup : Bool)
    (hign : serviceMetaData port.Container.Config.Env port.ExposedPort
        ['i', 'g', 'n', 'o', 'r', 'e'] = none ∨
      serviceMetaData port.Container.Config.Env port.ExposedPort
        ['i', 'g', 'n', 'o', 'r', 'e'] = some []) :
    (port.Container.Name ≠ [] → ∃ s, NewService h f port isgroup = Except.ok (some s)) ∧
    (∀ s, NewService h f port isgroup = Except.ok (some s) →
      ∃ pieces : List Str,
        s.Tags = pieces ++ (if port.PortType = "udp".toList then ["udp".toList] else []) ∧
        ((serviceMetaData port.Container.Config.Env port.ExposedPort "tags".toList = none ∨
          serviceMetaData port.Container.Config.Env port.ExposedPort "tags".toList = some [])
          → pieces = []) ∧
        (∀ t, serviceMetaData port.Container.Config.Env port.ExposedPort "tags".toList = some t
          → t ≠ [] →
          pieces = Split ',' t ∧ (∀ piece ∈ pieces, ∀ c ∈ piece, c ≠ ',') ∧
          [','].intercalate pieces = t)) ∧
    ∃ s, NewService exampleHost flagsOff frontendWebPort false = Except.ok (some s) ∧
      s.Tags = ["prod".toList, "edge".toList] := by
  have hudp : "udp".toList = ['u', 'd', 'p'] := rfl
  have htags : "tags".toList = ['t', 'a', 'g', 's'] := rfl
  refine ⟨?_, ?_, ?_⟩
  · intro hname
    have hi : mapdefault (serviceMetaData port.Container.Config.Env port.ExposedPort)
        ['i', 'g', 'n', 'o', 'r', 'e'] [] = [] := by
      rcases hign with h1 | h1 <;> simp [mapdefault, h1]
    obtain ⟨s, hs, -⟩ := NewService_built h f port isgroup hname hi
    exact ⟨s, hs⟩
  · intro s hs
    obtain ⟨-, -, -, ht, -⟩ := NewService_some h f port isgroup s hs
    rw [hudp, htags]
    refine ⟨_, ht, ?_, ?_⟩
    · intro habs
      rcases habs with h1 | h1 <;> simp [mapdefault, h1]
    · intro t ht1 hne
      have hm : mapdefault (serviceMetaData port.Container.Config.Env port.ExposedPort)
          ['t', 'a', 'g', 's'] [] = t := by
        simp [mapdefault, ht1]
      rw [hm, if_pos hne]
      exact ⟨rfl, Split_pieces_no_sep ',' t, Split_join ',' t⟩
  · exact ⟨_, rfl, by decide⟩

/-- Witness for C20: the udp candidate of `dnsUdp`, which has no `tags` metadata. -/
theorem C20_service_tags_witness :
    ∃ s, NewService exampleHost flagsOff (internalPort dnsUdp "53".toList "udp".toList) false
        = Except.ok (some s) ∧
      s.Tags = ["udp".toList] := by
  obtain ⟨hex, htags, -⟩ := C20_service_tags exampleHost flagsOff
    (internalPort dnsUdp "53".toList "udp".toList) false (Or.inl (by decide))
  obtain ⟨s, hs⟩ := hex (by decide)
  obtain ⟨pieces, hp, habs, -⟩ := htags s hs
  have hnil : pieces = [] := habs (Or.inl (by decide))
  refine ⟨s, hs, ?_⟩
  rw [hp, hnil]
  rfl

/-! ### Ports with several bindings -/

/-- C18 as stated fails: the port `80/tcp` of `twoBindings` has two host bindings and
`registerInternalAddress` is off, yet the candidate list holds one candidate for the port,
the one of the first binding; the second binding yields none. -/
theorem C18_counterexample :
    twoBindings.NetworkSettings.Ports.map (fun e => (e.1, e.2.length)) = [("80/tcp".toList, 2)] ∧
    flagsOff.registerInternalAddress = false ∧
    candidates flagsOff twoBindings
      = Except.ok [{ HostPort := "32768".toList, HostIP := "10.0.0.5".toList,
                     ExposedPort := "80".toList, PortType := "tcp".toList,
                     Container := twoBindings }] := by
  refine ⟨by decide, rfl, rfl⟩

/-- C18, amended: with `registerInternalAddress` off, a port `n/proto` that has `k ≥ 1` host
bindings contributes exactly one candidate to the list `Add` builds, at the port's place in
the visiting order: the external candidate that carries the host IP and host port of the
first binding; the other bindings contribute nothing. -/
theorem C18_one_candidate_per_port (f : Flags) (container : Container)
    (before after : List (Str × Str × List PortBinding)) (n proto : Str)
    (first : PortBinding) (more : List PortBinding)
    (hflag : f.registerInternalAddress = false)
    (hkeys : ∀ e ∈ before ++ [(n, proto, first :: more)] ++ after,
      (∀ c ∈ e.1, c ≠ '/') ∧ (∀ c ∈ e.2.1, c ≠ '/'))
    (hports : container.NetworkSettings.Ports
      = (before ++ [(n, proto, first :: more)] ++ after).map
          (fun e => (e.1 ++ ['/'] ++ e.2.1, e.2.2))) :
    candidates f container
      = Except.ok
          (before.filterMap (fun e => decisionTable f container e.1 e.2.1 e.2.2)
            ++ [{ HostPort := first.HostPort, HostIP := first.HostIp, ExposedPort := n,
                  PortType := proto, Container := container }]
            ++ after.filterMap (fun e => decisionTable f container e.1 e.2.1 e.2.2)) := by
  unfold candidates
  rw [hports, candidateLoop_table f container _ hkeys []]
  simp [List.filterMap_append, decisionTable, hflag]

/-- Witness for C18, amended: the port `80/tcp` of `twoBindings`, alone in the map. -/
theorem C18_one_candidate_per_port_witness :
    candidates flagsOff twoBindings
      = Except.ok
          (([] : List (Str × Str × List PortBinding)).filterMap
              (fun e => decisionTable flagsOff twoBindings e.1 e.2.1 e.2.2)
            ++ [{ HostPort := "32768".toList, HostIP := "10.0.0.5".toList,
                  ExposedPort := "80".toList, PortType := "tcp".toList,
                  Container := twoBindings }]
            ++ ([] : List (Str × Str × List PortBinding)).filterMap
              (fun e => decisionTable flagsOff twoBindings e.1 e.2.1 e.2.2)) :=
  C18_one_candidate_per_port flagsOff twoBindings [] [] "80".toList "tcp".toList
    { HostIp := "10.0.0.5".toList, HostPort := "32768".toList }
    [{ HostIp := "10.0.0.6".toList, HostPort := "32769".toList }]
    rfl (by decide) rfl

/-! ### The state after Add -/

theorem extendEntry_set (m : GoMap (List Service)) (k : Str) (service : Service)
    (added : List Service) :
    extendEntry (m.set k ((m k).getD [] ++ [service])) k added
      = extendEntry m k (service :: added) := by
  cases added with
  | nil => rfl
  | cons x xs =>
    funext key
    by_cases hk : key = k <;> simp [extendEntry, GoMap.set, hk]

/-- After the second loop of `Add` the map of services is the map before the loop with the
entry of the container extended by the services whose registration succeeded, in call
order.  This holds for every run of the loop, also one that ends in a panic. -/
theorem addLoop_services {ρ : Type} (h : Host) (f : Flags) (R : ServiceRegistry ρ)
    (container : Container) (isgroup : Bool) (ports : List PublishedPort) :
    ∀ b : RegistryBridge ρ,
      (addLoop h f R container isgroup ports b).bridge.services
        = extendEntry b.services container.ID
            (((addLoop h f R container isgroup ports b).calls.filter Prod.snd).map Prod.fst) := by
  induction ports with
  | nil => intro b; rfl
  | cons port rest ih =>
    intro b
    unfold addLoop
    cases hns : NewService h f port isgroup with
    | error e => rfl
    | ok o =>
      cases o with
      | none =>
        simp only
        split_ifs
        · rfl
        · exact ih b
      | some service =>
        simp only
        split_ifs with hreg hlen
        · simp only [Run.after, List.filter_cons, hreg]
          simpa using ih { b with registry := (R.Register b.registry service).1 }
        · rfl
        · have hreg1 : (R.Register b.registry service).2 = true := by
            simpa using hreg
          simp only [Run.after, List.filter_cons, hreg1, if_true, List.map_cons]
          rw [ih, extendEntry_set]

/-- A run of the second loop of `Add` that does not panic issues one retry-wrapped
`Register` for every candidate that is not suppressed, in candidate order. -/
theorem addLoop_calls {ρ : Type} (h : Host) (f : Flags) (R : ServiceRegistry ρ)
    (container : Container) (isgroup : Bool) (ports : List PublishedPort) :
    ∀ b : RegistryBridge ρ,
      (addLoop h f R container isgroup ports b).panicked = false →
      (addLoop h f R container isgroup ports b).calls
        = registerAll R (builtServices h f isgroup ports) b.registry := by
  induction ports with
  | nil => intro b _; rfl
  | cons port rest ih =>
    intro b
    unfold addLoop
    cases hns : NewService h f port isgroup with
    | error e => simp
    | ok o =>
      cases o with
      | none =>
        simp only
        split_ifs
        · simp
        · intro hp
          rw [ih b hp]
          simp [builtServices, hns]
      | some service =>
        simp only
        split_ifs with hreg hlen
        · intro hp
          have hb : builtServices h f isgroup (port :: rest)
              = service :: builtServices h f isgroup rest := by
            simp [builtServices, hns]
          rw [hb]
          simp only [Run.after, registerAll, hreg]
          rw [ih { b with registry := (R.Register b.registry service).1 } hp]
        · simp
        · intro hp
          have hreg1 : (R.Register b.registry service).2 = true := by
            simpa using hreg
          have hb : builtServices h f isgroup (port :: rest)
              = service :: builtServices h f isgroup rest := by
            simp [builtServices, hns]
          rw [hb]
          simp only [Run.after, registerAll, hreg1]
          rw [ih _ hp]

theorem extendEntry_other (m : GoMap (List Service)) (k key : Str) (added : List Service)
    (hk : key ≠ k) : extendEntry m k added key = m key := by
  cases added with
  | nil => rfl
  | cons x xs => simp [extendEntry, GoMap.set, hk]

/-- The state and the calls of `Add` for a successful inspection. -/
theorem Add_inspected {ρ : Type} (h : Host) (f : Flags) (docker : Str → Option Container)
    (R : ServiceRegistry ρ) (b : RegistryBridge ρ) (c : Str) (s : Container)
    (hd : docker c = some s) :
    (Add h f docker R b c).bridge.services
      = extendEntry b.services s.ID
          (((Add h f docker R b c).calls.filter Prod.snd).map Prod.fst) ∧
    (∀ ports, candidates f s = Except.ok ports → (Add h f docker R b c).panicked = false →
      (Add h f docker R b c).calls
        = registerAll R (builtServices h f (decide (ports.length > 1)) ports) b.registry) ∧
    (candidates f s = Except.ok [] →
      (Add h f docker R b c).bridge = b ∧ (Add h f docker R b c).calls = []) := by
  unfold Add
  rw [hd]
  simp only
  cases hcand : candidates f s with
  | error e =>
    refine ⟨rfl, ?_, ?_⟩
    · intro ports hp
      cases hp
    · intro hp
      cases hp
  | ok ports =>
    simp only
    by_cases h0 : ports.length = 0
    · rw [if_pos h0]
      have hnil : ports = [] := List.length_eq_zero.mp h0
      refine ⟨rfl, ?_, ?_⟩
      · intro ports1 hp _
        injection hp with hp
        rw [← hp, hnil]
        rfl
      · intro _
        exact ⟨rfl, rfl⟩
    · rw [if_neg h0]
      refine ⟨addLoop_services h f R s _ ports b, ?_, ?_⟩
      · intro ports1 hp hpanic
        injection hp with hp
        subst hp
        exact addLoop_calls h f R s _ ports b hpanic
      · intro hp
        injection hp with hp
        rw [hp] at h0
        exact absurd rfl h0

/-! ### Sequences of calls -/

theorem filter_snd_ne_nil (calls : List (Service × Bool)) :
    (calls.filter Prod.snd).map Prod.fst ≠ [] ↔ calls.any Prod.snd = true := by
  induction calls with
  | nil => simp
  | cons call rest ih =>
    cases hc : call.2 <;> simp [List.filter_cons, hc, ih]

theorem extendEntry_isSome (m : GoMap (List Service)) (k key : Str) (added : List Service) :
    (extendEntry m k added key).isSome = true
      ↔ (key = k ∧ added ≠ []) ∨ (m key).isSome = true := by
  cases added with
  | nil => simp [extendEntry]
  | cons x xs =>
    by_cases hk : key = k <;> simp [extendEntry, GoMap.set, hk]

/-- A `Remove` that returns normally deletes the entry of its identifier and nothing
else. -/
theorem Remove_services {ρ : Type} (R : ServiceRegistry ρ) (b : RegistryBridge ρ) (c : Str)
    (hp : (Remove R b c).panicked = false) :
    (Remove R b c).bridge.services = b.services.delete c := by
  have hs := removeLoop_services R c ((b.services c).getD []) b
  unfold Remove at hp ⊢
  simp only at hp ⊢
  split_ifs at hp ⊢ with hpanic
  · rw [hpanic] at hp
    cases hp
  · simp [hs]

/-- The presence of a key after one call that returns normally. -/
theorem applyOp_isSome {ρ : Type} (h : Host) (f : Flags) (R : ServiceRegistry ρ)
    (b : RegistryBridge ρ) (op : Op) (k : Str)
    (hp : (applyOp h f R b op).panicked = false) :
    ((applyOp h f R b op).bridge.services k).isSome = true
      ↔ Event.registersFor k { before := b, op := op, run := applyOp h f R b op } = true ∨
        ((b.services k).isSome = true ∧
          Event.removes k { before := b, op := op, run := applyOp h f R b op } = false) := by
  cases op with
  | add c inspected =>
    cases inspected with
    | none =>
      simp [applyOp, Add, Event.registersFor, Event.removes]
    | some s =>
      have hserv := (Add_inspected h f (fun _ => some s) R b c s rfl).1
      simp only [applyOp, Event.registersFor, Event.removes]
      rw [hserv, extendEntry_isSome, filter_snd_ne_nil]
      simp only [Bool.and_eq_true, decide_eq_true_eq, and_true]
      constructor
      · rintro (⟨hk, hany⟩ | hsome)
        · exact Or.inl ⟨hk.symm, hany⟩
        · exact Or.inr hsome
      · rintro (⟨hk, hany⟩ | hsome)
        · exact Or.inl ⟨hk.symm, hany⟩
        · exact Or.inr hsome
  | remove c =>
    simp only [applyOp] at hp ⊢
    rw [Remove_services R b c hp]
    simp only [Event.registersFor, Event.removes, GoMap.delete]
    by_cases hk : k = c
    · simp [hk]
    · have hk1 : ¬ c = k := fun e => hk e.symm
      simp [hk, hk1]

/-- The presence of a key after a history of calls that all return normally, started in any
bridge state. -/
theorem runOps_isSome {ρ : Type} (h : Host) (f : Flags) (R : ServiceRegistry ρ) (k : Str)
    (ops : List Op) :
    ∀ b : RegistryBridge ρ,
      (∀ e ∈ runOps h f R ops b, e.run.panicked = false) →
      (((finalBridge b (runOps h f R ops b)).services k).isSome = true
        ↔ ((b.services k).isSome = true ∧
            ∀ e ∈ runOps h f R ops b, Event.removes k e = false) ∨
          ∃ pre e post, runOps h f R ops b = pre ++ e :: post ∧
            Event.registersFor k e = true ∧ ∀ e1 ∈ post, Event.removes k e1 = false) := by
  induction ops with
  | nil =>
    intro b _
    simp [runOps, finalBridge]
  | cons op rest ih =>
    intro b hp
    have hp0 : (applyOp h f R b op).panicked = false :=
      hp { before := b, op := op, run := applyOp h f R b op } (by simp [runOps])
    have hprest : ∀ e ∈ runOps h f R rest (applyOp h f R b op).bridge,
        e.run.panicked = false := by
      intro e he
      exact hp e (by simp [runOps, he])
    have hstep := applyOp_isSome h f R b op k hp0
    have hih := ih (applyOp h f R b op).bridge hprest
    simp only [runOps, finalBridge]
    rw [hih, hstep]
    constructor
    · rintro (⟨hsome, hnorem⟩ | ⟨pre, e, post, hsplit, hreg, hnorem⟩)
      · rcases hsome with hreg | ⟨hb, hrem⟩
        · exact Or.inr ⟨[], _, _, rfl, hreg, hnorem⟩
        · refine Or.inl ⟨hb, ?_⟩
          intro e he
          rcases List.mem_cons.mp he with h1 | h1
          · rw [h1]; exact hrem
          · exact hnorem e h1
      · exact Or.inr ⟨_ :: pre, e, post, by rw [hsplit]; rfl, hreg, hnorem⟩
    · rintro (⟨hb, hnorem⟩ | ⟨pre, e, post, hsplit, hreg, hnorem⟩)
      · exact Or.inl ⟨Or.inr ⟨hb, hnorem _ (List.mem_cons_self _ _)⟩,
          fun e he => hnorem e (List.mem_cons_of_mem _ he)⟩
      · cases pre with
        | nil =>
          simp only [List.nil_append, List.cons.injEq] at hsplit
          obtain ⟨he, hpost⟩ := hsplit
          rw [← he] at hreg
          rw [← hpost] at hnorem
          exact Or.inl ⟨Or.inl hreg, hnorem⟩
        | cons x pre1 =>
          simp only [List.cons_append, List.cons.injEq] at hsplit
          exact Or.inr ⟨pre1, e, post, hsplit.2, hreg, hnorem⟩

/-- C12 as stated fails: with a registry whose registrations fail, `Add` produces a
non-suppressed service for the only candidate of `dnsUdp` and returns normally, yet the
identifier of the container is not a key of the map afterwards. -/
theorem C12_counterexample :
    emptyBridge.services "a1b2c3d4e5f60718".toList = none ∧
    candidates flagsOff dnsUdp = Except.ok [internalPort dnsUdp "53".toList "udp".toList] ∧
    (builtServices exampleHost flagsOff false
      [internalPort dnsUdp "53".toList "udp".toList]).length = 1 ∧
    (runOps exampleHost flagsOff alwaysFail [Op.add dnsUdp.ID (some dnsUdp)] emptyBridge).map
      (fun e => (e.run.panicked, e.run.calls.length)) = [(false, 1)] ∧
    ((finalBridge emptyBridge
      (runOps exampleHost flagsOff alwaysFail [Op.add dnsUdp.ID (some dnsUdp)]
        emptyBridge)).services dnsUdp.ID).isSome = false := by
  refine ⟨rfl, rfl, ?_, ?_, ?_⟩ <;> decide

/-- C12, amended: in every bridge state reached from the empty map by a sequence of `Add`
and `Remove` calls that return normally, a container identifier is a key of the map if and
only if some `Add` call whose inspected snapshot carries that identifier registered at
least one service successfully and no `Remove` of the identifier was made after it. -/
theorem C12_key_present_iff {ρ : Type} (h : Host) (f : Flags) (R : ServiceRegistry ρ)
    (ops : List Op) (b0 : RegistryBridge ρ) (k : Str)
    (hb0 : b0.services = GoMap.empty)
    (hp : ∀ e ∈ runOps h f R ops b0, e.run.panicked = false) :
    ((finalBridge b0 (runOps h f R ops b0)).services k).isSome = true
      ↔ ∃ pre e post, runOps h f R ops b0 = pre ++ e :: post ∧
          Event.registersFor k e = true ∧ ∀ e1 ∈ post, Event.removes k e1 = false := by
  rw [runOps_isSome h f R k ops b0 hp]
  constructor
  · rintro (⟨hsome, -⟩ | hex)
    · rw [hb0] at hsome
      simp [GoMap.empty] at hsome
    · exact hex
  · intro hex
    exact Or.inr hex

/-- Witness for C12, amended: `dnsUdp` added and then removed; its identifier is a key after
the first call and not after the second. -/
theorem C12_key_present_iff_witness :
    (((finalBridge emptyBridge
        (runOps exampleHost flagsOff alwaysOk [Op.add dnsUdp.ID (some dnsUdp)]
          emptyBridge)).services dnsUdp.ID).isSome = true
      ↔ ∃ pre e post,
          runOps exampleHost flagsOff alwaysOk [Op.add dnsUdp.ID (some dnsUdp)] emptyBridge
            = pre ++ e :: post ∧
          Event.registersFor dnsUdp.ID e = true ∧
          ∀ e1 ∈ post, Event.removes dnsUdp.ID e1 = false) ∧
    (((finalBridge emptyBridge
        (runOps exampleHost flagsOff alwaysOk
          [Op.add dnsUdp.ID (some dnsUdp), Op.remove dnsUdp.ID]
          emptyBridge)).services dnsUdp.ID).isSome = true
      ↔ ∃ pre e post,
          runOps exampleHost flagsOff alwaysOk
              [Op.add dnsUdp.ID (some dnsUdp), Op.remove dnsUdp.ID] emptyBridge
            = pre ++ e :: post ∧
          Event.registersFor dnsUdp.ID e = true ∧
          ∀ e1 ∈ post, Event.removes dnsUdp.ID e1 = false) :=
  ⟨C12_key_present_iff exampleHost flagsOff alwaysOk [Op.add dnsUdp.ID (some dnsUdp)]
      emptyBridge dnsUdp.ID rfl (by decide),
   C12_key_present_iff exampleHost flagsOff alwaysOk
      [Op.add dnsUdp.ID (some dnsUdp), Op.remove dnsUdp.ID] emptyBridge dnsUdp.ID rfl
      (by decide)⟩

/-! ### Distinct service IDs -/

/-- A string is split at its first separator in one way only. -/
theorem sep_unique (sep : Char) (a b x y : Str)
    (ha : ∀ c ∈ a, c ≠ sep) (hb : ∀ c ∈ b, c ≠ sep)
    (h : a ++ sep :: x = b ++ sep :: y) : a = b ∧ x = y := by
  have h1 := SplitN2_append sep a x ha
  have h2 := SplitN2_append sep b y hb
  rw [h, h2] at h1
  simp only [List.cons.injEq, and_true] at h1
  exact ⟨h1.1.symm, h1.2.symm⟩

/-- Two services with well-formed computed IDs for the same host name and equal IDs belong
to containers of the same name and to the same port and transport. -/
theorem wellFormedID_inj (H : Str) (x y : Service)
    (hx : wellFormedID H x) (hy : wellFormedID H y) (hid : x.ID = y.ID) :
    x.pp.Container.Name.drop 1 = y.pp.Container.Name.drop 1 ∧
    x.pp.ExposedPort = y.pp.ExposedPort ∧ x.pp.PortType = y.pp.PortType := by
  obtain ⟨hxid, hxn, hxp, hxt⟩ := hx
  obtain ⟨hyid, hyn, hyp, hyt⟩ := hy
  rw [hxid, hyid] at hid
  have hid1 : x.pp.Container.Name.drop 1 ++ ':' ::
        (x.pp.ExposedPort ++ (if x.pp.PortType = ['u', 'd', 'p'] then [':', 'u', 'd', 'p'] else []))
      = y.pp.Container.Name.drop 1 ++ ':' ::
        (y.pp.ExposedPort ++ (if y.pp.PortType = ['u', 'd', 'p'] then [':', 'u', 'd', 'p'] else [])) := by
    have := hid
    simp only [List.append_assoc, List.singleton_append, List.cons_append, List.nil_append] at this
    exact (List.cons.inj (List.append_cancel_left this)).2
  obtain ⟨hname, hrest⟩ := sep_unique ':' _ _ _ _ hxn hyn hid1
  refine ⟨hname, ?_⟩
  have htu : (['t', 'c', 'p'] : Str) ≠ ['u', 'd', 'p'] := by decide
  rcases hxt with hxt | hxt <;> rcases hyt with hyt | hyt
  · rw [hxt, hyt] at hrest ⊢
    simp only [htu, if_false, List.append_nil] at hrest
    exact ⟨hrest, rfl⟩
  · rw [hxt, hyt] at hrest
    simp only [htu, if_false, if_true, List.append_nil] at hrest
    exfalso
    exact hxp ':' (by rw [hrest]; simp) rfl
  · rw [hxt, hyt] at hrest
    simp only [htu, if_false, if_true, List.append_nil] at hrest
    exfalso
    exact hyp ':' (by rw [← hrest]; simp) rfl
  · rw [hxt, hyt] at hrest ⊢
    simp only [if_true] at hrest
    exact ⟨List.append_cancel_right hrest, rfl⟩

theorem decisionTable_fields (f : Flags) (c : Container) (n proto : Str)
    (published : List PortBinding) (port : PublishedPort)
    (h : decisionTable f c n proto published = some port) :
    port.ExposedPort = n ∧ port.PortType = proto ∧ port.Container = c := by
  unfold decisionTable at h
  cases published <;> cases hi : f.registerInternalAddress <;>
    cases he : f.registerExposedPorts <;> simp [hi, he] at h <;>
    (subst h; exact ⟨rfl, rfl, rfl⟩)

theorem filterMap_map_sublist {α β γ : Type} (f : α → Option β) (g : β → γ) (g1 : α → γ)
    (hfg : ∀ a b, f a = some b → g b = g1 a) (l : List α) :
    ((l.filterMap f).map g).Sublist (l.map g1) := by
  induction l with
  | nil => simp
  | cons a rest ih =>
    cases hfa : f a with
    | none =>
      rw [List.filterMap_cons_none hfa, List.map_cons]
      exact List.Sublist.cons _ ih
    | some b =>
      rw [List.filterMap_cons_some hfa, List.map_cons, List.map_cons, hfg a b hfa]
      exact List.Sublist.cons₂ _ ih

theorem builtServices_mem (h : Host) (f : Flags) (isgroup : Bool) (ports : List PublishedPort)
    (x : Service) :
    x ∈ builtServices h f isgroup ports
      ↔ ∃ port ∈ ports, NewService h f port isgroup = Except.ok (some x) := by
  unfold builtServices
  rw [List.mem_filterMap]
  constructor
  · rintro ⟨port, hport, hx⟩
    refine ⟨port, hport, ?_⟩
    cases hns : NewService h f port isgroup with
    | error e => rw [hns] at hx; simp at hx
    | ok o =>
      cases o with
      | none => rw [hns] at hx; simp at hx
      | some y =>
        rw [hns] at hx
        simp only [Option.some.injEq] at hx
        rw [hx]
  · rintro ⟨port, hport, hx⟩
    exact ⟨port, hport, by rw [hx]⟩

theorem registerAll_map_fst {ρ : Type} (R : ServiceRegistry ρ) (services : List Service) :
    ∀ r : ρ, (registerAll R services r).map Prod.fst = services := by
  induction services with
  | nil => intro r; rfl
  | cons x rest ih => intro r; simp [registerAll, ih]

/-- The candidates of a plain snapshot, and the services built from them: each has a
well-formed computed ID and belongs to the snapshot, and their IDs are pairwise distinct. -/
theorem builtServices_plain (h : Host) (f : Flags) (isgroup : Bool) (s : Container) (H : Str)
    (ports : List PublishedPort)
    (hH : h.Hostname = some H) (hplain : plainSnapshot s)
    (hcand : candidates f s = Except.ok ports) :
    (∀ x ∈ builtServices h f isgroup ports, wellFormedID H x ∧ x.pp.Container = s) ∧
    ((builtServices h f isgroup ports).map Service.ID).Nodup := by
  obtain ⟨hn, hidmeta, entries, hports, hentries, hnodup⟩ := hplain
  have hkeys : ∀ e ∈ entries, (∀ c ∈ e.1, c ≠ '/') ∧ (∀ c ∈ e.2.1, c ≠ '/') := by
    intro e he
    refine ⟨fun c hc => ((hentries e he).1 c hc).1, ?_⟩
    rcases (hentries e he).2 with ht | ht <;> rw [ht] <;> decide
  have hp : ports = entries.filterMap (fun e => decisionTable f s e.1 e.2.1 e.2.2) := by
    unfold candidates at hcand
    rw [hports, candidateLoop_table f s entries hkeys []] at hcand
    simp only [List.nil_append] at hcand
    injection hcand with hcand
    exact hcand.symm
  have hport : ∀ port ∈ ports, ∃ e ∈ entries,
      port.ExposedPort = e.1 ∧ port.PortType = e.2.1 ∧ port.Container = s := by
    intro port hmem
    rw [hp, List.mem_filterMap] at hmem
    obtain ⟨e, he, hdt⟩ := hmem
    exact ⟨e, he, decisionTable_fields f s e.1 e.2.1 e.2.2 port hdt⟩
  have hbuilt : ∀ x ∈ builtServices h f isgroup ports, wellFormedID H x ∧ x.pp.Container = s := by
    intro x hx
    obtain ⟨port, hmem, hns⟩ := (builtServices_mem h f isgroup ports x).mp hx
    obtain ⟨e, he, hexp, htyp, hcont⟩ := hport port hmem
    obtain ⟨-, -, hpp, -, hid⟩ := NewService_some h f port isgroup x hns
    have hhost : resolvedHostname h port = H := by
      simp [resolvedHostname, hH]
    rw [hcont, hidmeta] at hid
    simp only [ne_eq, not_true_eq_false, if_false] at hid
    refine ⟨⟨?_, ?_, ?_, ?_⟩, ?_⟩
    · rw [hid, hpp, hhost, hcont]
    · rw [hpp]
      simpa [hcont] using hn
    · rw [hpp]
      intro ch hch
      exact ((hentries e he).1 ch (by simpa [hexp] using hch)).2
    · rw [hpp]
      simpa [htyp] using (hentries e he).2
    · rw [hpp]
      exact hcont
  refine ⟨hbuilt, ?_⟩
  have hsub1 : ((builtServices h f isgroup ports).map
        (fun x => (x.pp.ExposedPort, x.pp.PortType))).Sublist
      (ports.map (fun port => (port.ExposedPort, port.PortType))) := by
    unfold builtServices
    apply filterMap_map_sublist
    intro port x hx
    have hns : NewService h f port isgroup = Except.ok (some x) := by
      cases hns : NewService h f port isgroup with
      | error e => rw [hns] at hx; simp at hx
      | ok o =>
        cases o with
        | none => rw [hns] at hx; simp at hx
        | some y =>
          rw [hns] at hx
          simp only [Option.some.injEq] at hx
          rw [hx]
    obtain ⟨-, -, hpp, -, -⟩ := NewService_some h f port isgroup x hns
    rw [hpp]
  have hsub2 : (ports.map (fun port => (port.ExposedPort, port.PortType))).Sublist
      (entries.map (fun e => (e.1, e.2.1))) := by
    rw [hp]
    apply filterMap_map_sublist
    intro e port hdt
    obtain ⟨h1, h2, -⟩ := decisionTable_fields f s e.1 e.2.1 e.2.2 port hdt
    rw [h1, h2]
  have hkeynodup := (hsub1.trans hsub2).nodup hnodup
  have hlist := List.Nodup.of_map _ hkeynodup
  apply List.Nodup.map_on _ hlist
  intro x hx y hy hxy
  obtain ⟨hwx, -⟩ := hbuilt x hx
  obtain ⟨hwy, -⟩ := hbuilt y hy
  obtain ⟨-, hexp, htyp⟩ := wellFormedID_inj H x y hwx hwy hxy
  exact List.inj_on_of_nodup_map hkeynodup hx hy (by simp [hexp, htyp])

theorem extendEntry_mem (m : GoMap (List Service)) (k key : Str) (added l : List Service)
    (x : Service) (hl : extendEntry m k added key = some l) (hx : x ∈ l) :
    (∃ l0, m key = some l0 ∧ x ∈ l0) ∨ (key = k ∧ x ∈ added) := by
  cases added with
  | nil => exact Or.inl ⟨l, hl, hx⟩
  | cons a rest =>
    by_cases hk : key = k
    · simp only [extendEntry, GoMap.set, hk, if_true, Option.some.injEq] at hl
      rw [← hl] at hx
      rcases List.mem_append.mp hx with h1 | h1
      · cases hm : m k with
        | none => rw [hm] at h1; simp at h1
        | some l0 =>
          rw [hm] at h1
          exact Or.inl ⟨l0, by rw [hk]; exact hm, by simpa using h1⟩
      · exact Or.inr ⟨hk, h1⟩
    · simp only [extendEntry, GoMap.set, hk, if_false] at hl
      exact Or.inl ⟨l, hl, hx⟩

/-- Extending one entry by services whose IDs are pairwise distinct and differ from every ID
already in the map keeps all IDs in the map pairwise distinct. -/
theorem extendEntry_distinct (m : GoMap (List Service)) (k : Str) (added : List Service)
    (hm1 : ∀ key l, m key = some l → (l.map Service.ID).Nodup)
    (hm2 : ∀ k1 k2 l1 l2, k1 ≠ k2 → m k1 = some l1 → m k2 = some l2 →
      ∀ x ∈ l1, ∀ y ∈ l2, x.ID ≠ y.ID)
    (ha : (added.map Service.ID).Nodup)
    (hnew : ∀ x ∈ added, ∀ key l y, m key = some l → y ∈ l → x.ID ≠ y.ID) :
    (∀ key l, extendEntry m k added key = some l → (l.map Service.ID).Nodup) ∧
    (∀ k1 k2 l1 l2, k1 ≠ k2 → extendEntry m k added k1 = some l1 →
      extendEntry m k added k2 = some l2 → ∀ x ∈ l1, ∀ y ∈ l2, x.ID ≠ y.ID) := by
  constructor
  · intro key l hl
    cases hadd : added with
    | nil =>
      rw [hadd] at hl
      exact hm1 key l hl
    | cons a rest =>
      by_cases hk : key = k
      · rw [hadd] at hl
        simp only [extendEntry, GoMap.set, hk, if_true, Option.some.injEq] at hl
        rw [← hl, ← hadd, List.map_append, List.nodup_append]
        refine ⟨?_, ha, ?_⟩
        · cases hmk : m k with
          | none => simp
          | some l0 => simpa using hm1 k l0 hmk
        · intro id h1 h2
          obtain ⟨y, hy, hyid⟩ := List.mem_map.mp h1
          obtain ⟨x, hx, hxid⟩ := List.mem_map.mp h2
          cases hmk : m k with
          | none => rw [hmk] at hy; simp at hy
          | some l0 =>
            rw [hmk] at hy
            exact hnew x hx k l0 y hmk (by simpa using hy) (by rw [hxid, hyid])
      · rw [hadd] at hl
        simp only [extendEntry, GoMap.set, hk, if_false] at hl
        exact hm1 key l hl
  · intro k1 k2 l1 l2 hne h1 h2 x hx y hy
    rcases extendEntry_mem m k k1 added l1 x h1 hx with ⟨l01, hm01, hx0⟩ | ⟨hk1, hxa⟩
    · rcases extendEntry_mem m k k2 added l2 y h2 hy with ⟨l02, hm02, hy0⟩ | ⟨hk2, hya⟩
      · exact hm2 k1 k2 l01 l02 hne hm01 hm02 x hx0 y hy0
      · exact fun e => hnew y hya k1 l01 x hm01 hx0 e.symm
    · rcases extendEntry_mem m k k2 added l2 y h2 hy with ⟨l02, hm02, hy0⟩ | ⟨hk2, hya⟩
      · exact hnew x hxa k2 l02 y hm02 hy0
      · exact absurd (hk1.trans hk2.symm) hne

/-- An `Add` of a plain snapshot with a fresh name that returns normally keeps the IDs in
the map pairwise distinct and well-formed. -/
theorem Add_preserves_distinct {ρ : Type} (h : Host) (f : Flags) (R : ServiceRegistry ρ)
    (b : RegistryBridge ρ) (c : Str) (s : Container) (H : Str)
    (hH : h.Hostname = some H) (hplain : plainSnapshot s) (hfresh : freshName b s)
    (hp : (Add h f (fun _ => some s) R b c).panicked = false)
    (hd : distinctIDs b) (hw : heldWellFormed H b) :
    distinctIDs (Add h f (fun _ => some s) R b c).bridge ∧
    heldWellFormed H (Add h f (fun _ => some s) R b c).bridge := by
  obtain ⟨hserv, hcalls, -⟩ := Add_inspected h f (fun _ => some s) R b c s rfl
  cases hcand : candidates f s with
  | error e =>
    exfalso
    unfold Add at hp
    simp only [hcand] at hp
    cases hp
  | ok ports =>
    have hc := hcalls ports hcand hp
    have hsub : (((Add h f (fun _ => some s) R b c).calls.filter Prod.snd).map Prod.fst).Sublist
        (builtServices h f (decide (ports.length > 1)) ports) := by
      have h1 : (((Add h f (fun _ => some s) R b c).calls.filter Prod.snd).map Prod.fst).Sublist
          ((Add h f (fun _ => some s) R b c).calls.map Prod.fst) :=
        (List.filter_sublist _).map Prod.fst
      rw [hc, registerAll_map_fst] at h1
      rw [hc]
      exact h1
    obtain ⟨hbuilt, hbnodup⟩ := builtServices_plain h f (decide (ports.length > 1)) s H ports
      hH hplain hcand
    have hsucc : ∀ x ∈ ((Add h f (fun _ => some s) R b c).calls.filter Prod.snd).map Prod.fst,
        wellFormedID H x ∧ x.pp.Container = s :=
      fun x hx => hbuilt x (hsub.subset hx)
    have hsnodup : ((((Add h f (fun _ => some s) R b c).calls.filter Prod.snd).map
        Prod.fst).map Service.ID).Nodup :=
      (hsub.map Service.ID).nodup hbnodup
    have hnew : ∀ x ∈ ((Add h f (fun _ => some s) R b c).calls.filter Prod.snd).map Prod.fst,
        ∀ key l y, b.services key = some l → y ∈ l → x.ID ≠ y.ID := by
      intro x hx key l y hl hy heq
      obtain ⟨hwx, hxc⟩ := hsucc x hx
      obtain ⟨hname, -, -⟩ := wellFormedID_inj H x y hwx (hw key l y hl hy) heq
      apply hfresh key l y hl hy
      rw [← hname, hxc]
    obtain ⟨h1, h2⟩ := extendEntry_distinct b.services s.ID _ hd.1 hd.2 hsnodup hnew
    constructor
    · unfold distinctIDs
      rw [hserv]
      exact ⟨h1, h2⟩
    · unfold heldWellFormed
      rw [hserv]
      intro key l x hl hx
      rcases extendEntry_mem b.services s.ID key _ l x hl hx with ⟨l0, hm0, hx0⟩ | ⟨-, hxa⟩
      · exact hw key l0 x hm0 hx0
      · exact (hsucc x hxa).1

/-- A `Remove` that returns normally keeps the IDs in the map pairwise distinct and
well-formed. -/
theorem Remove_preserves_distinct {ρ : Type} (R : ServiceRegistry ρ) (b : RegistryBridge ρ)
    (c : Str) (H : Str) (hp : (Remove R b c).panicked = false)
    (hd : distinctIDs b) (hw : heldWellFormed H b) :
    distinctIDs (Remove R b c).bridge ∧ heldWellFormed H (Remove R b c).bridge := by
  have hs := Remove_services R b c hp
  have hsub : ∀ key l, (Remove R b c).bridge.services key = some l → b.services key = some l := by
    intro key l hl
    rw [hs] at hl
    unfold GoMap.delete at hl
    by_cases hk : key = c
    · simp [hk] at hl
    · simpa [hk] using hl
  refine ⟨⟨?_, ?_⟩, ?_⟩
  · intro key l hl
    exact hd.1 key l (hsub key l hl)
  · intro k1 k2 l1 l2 hne h1 h2
    exact hd.2 k1 k2 l1 l2 hne (hsub k1 l1 h1) (hsub k2 l2 h2)
  · intro key l x hl hx
    exact hw key l x (hsub key l hl) hx

/-- A history of calls that all return normally, in which every added snapshot is plain and
has a fresh name, keeps the IDs in the map pairwise distinct and well-formed. -/
theorem runOps_distinct {ρ : Type} (h : Host) (f : Flags) (R : ServiceRegistry ρ) (H : Str)
    (hH : h.Hostname = some H) (ops : List Op) :
    ∀ b : RegistryBridge ρ,
      distinctIDs b → heldWellFormed H b →
      (∀ e ∈ runOps h f R ops b, e.run.panicked = false) →
      (∀ e ∈ runOps h f R ops b, ∀ c s, e.op = Op.add c (some s) →
        plainSnapshot s ∧ freshName e.before s) →
      distinctIDs (finalBridge b (runOps h f R ops b)) ∧
      heldWellFormed H (finalBridge b (runOps h f R ops b)) := by
  induction ops with
  | nil => intro b hd hw _ _; exact ⟨hd, hw⟩
  | cons op rest ih =>
    intro b hd hw hp hgood
    have hp0 : (applyOp h f R b op).panicked = false :=
      hp { before := b, op := op, run := applyOp h f R b op } (by simp [runOps])
    have hprest : ∀ e ∈ runOps h f R rest (applyOp h f R b op).bridge,
        e.run.panicked = false :=
      fun e he => hp e (by simp [runOps, he])
    have hgrest : ∀ e ∈ runOps h f R rest (applyOp h f R b op).bridge, ∀ c s,
        e.op = Op.add c (some s) → plainSnapshot s ∧ freshName e.before s :=
      fun e he => hgood e (by simp [runOps, he])
    have hstep : distinctIDs (applyOp h f R b op).bridge ∧
        heldWellFormed H (applyOp h f R b op).bridge := by
      cases op with
      | add c inspected =>
        cases inspected with
        | none => exact ⟨hd, hw⟩
        | some s =>
          obtain ⟨hplain, hfresh⟩ :=
            hgood { before := b, op := Op.add c (some s),
                    run := applyOp h f R b (Op.add c (some s)) } (by simp [runOps]) c s rfl
          exact Add_preserves_distinct h f R b c s H hH hplain hfresh hp0 hd hw
      | remove c => exact Remove_preserves_distinct R b c H hp0 hd hw
    simp only [runOps, finalBridge]
    exact ih (applyOp h f R b op).bridge hstep.1 hstep.2 hprest hgrest

/-- C13 as stated fails: two `Add` calls for the same container without a `Remove` between
them both return normally, and the map then holds two services with the same ID. -/
theorem C13_counterexample :
    emptyBridge.services "a1b2c3d4e5f60718".toList = none ∧
    (runOps exampleHost flagsOff alwaysOk
      [Op.add dnsUdp.ID (some dnsUdp), Op.add dnsUdp.ID (some dnsUdp)] emptyBridge).map
      (fun e => e.run.panicked) = [false, false] ∧
    (((finalBridge emptyBridge
      (runOps exampleHost flagsOff alwaysOk
        [Op.add dnsUdp.ID (some dnsUdp), Op.add dnsUdp.ID (some dnsUdp)]
        emptyBridge)).services dnsUdp.ID).getD []).map Service.ID
      = ["reg-host:resolver:53:udp".toList, "reg-host:resolver:53:udp".toList] := by
  refine ⟨rfl, ?_, ?_⟩ <;> decide

/-- C13, amended: in every bridge state reached from the empty map by a sequence of `Add`
and `Remove` calls that return normally, when the host name lookup succeeds and every
snapshot that is added is plain (name without `:`, no `id` metadata, distinct port keys
`n/tcp` or `n/udp`) and has a name that no container with services in the map has at that
moment, the services held in the map have pairwise distinct IDs, within each container's
list and across containers. -/
theorem C13_distinct_ids {ρ : Type} (h : Host) (f : Flags) (R : ServiceRegistry ρ)
    (ops : List Op) (b0 : RegistryBridge ρ) (H : Str)
    (hH : h.Hostname = some H)
    (hb0 : b0.services = GoMap.empty)
    (hp : ∀ e ∈ runOps h f R ops b0, e.run.panicked = false)
    (hgood : ∀ e ∈ runOps h f R ops b0, ∀ c s, e.op = Op.add c (some s) →
      plainSnapshot s ∧ freshName e.before s) :
    distinctIDs (finalBridge b0 (runOps h f R ops b0)) := by
  have hd : distinctIDs b0 := by
    unfold distinctIDs
    rw [hb0]
    constructor
    · intro k l hl
      simp [GoMap.empty] at hl
    · intro k1 k2 l1 l2 _ hl
      simp [GoMap.empty] at hl
  have hw : heldWellFormed H b0 := by
    unfold heldWellFormed
    rw [hb0]
    intro k l x hl
    simp [GoMap.empty] at hl
  exact (runOps_distinct h f R H hH ops b0 hd hw hp hgood).1

theorem plainSnapshot_dnsBoth : plainSnapshot dnsBoth := by
  refine ⟨by decide, fun p => rfl,
    [("53".toList, "tcp".toList, []), ("53".toList, "udp".toList, [])], rfl, ?_, ?_⟩
  · decide
  · decide

theorem plainSnapshot_dnsUdp : plainSnapshot dnsUdp := by
  refine ⟨by decide, fun p => rfl, [("53".toList, "udp".toList, [])], rfl, ?_, ?_⟩
  · decide
  · decide

/-- Witness for C13, amended: `dnsBoth` and then `dnsUdp` added to the empty bridge; the
three services held afterwards have pairwise distinct IDs. -/
theorem C13_distinct_ids_witness :
    distinctIDs (finalBridge emptyBridge
      (runOps exampleHost flagsOff alwaysOk
        [Op.add dnsBoth.ID (some dnsBoth), Op.add dnsUdp.ID (some dnsUdp)] emptyBridge)) :=
  C13_distinct_ids exampleHost flagsOff alwaysOk
    [Op.add dnsBoth.ID (some dnsBoth), Op.add dnsUdp.ID (some dnsUdp)] emptyBridge
    "reg-host".toList rfl rfl (by decide)
    (by
      intro e he c s hop
      simp only [runOps, List.mem_cons, List.mem_singleton, List.not_mem_nil, or_false] at he
      rcases he with he | he
      · rw [he] at hop ⊢
        simp only [Op.add.injEq, Option.some.injEq] at hop
        rw [← hop.2]
        refine ⟨plainSnapshot_dnsBoth, ?_⟩
        intro k l x hl
        simp [emptyBridge, GoMap.empty] at hl
      · rw [he] at hop ⊢
        simp only [Op.add.injEq, Option.some.injEq] at hop
        rw [← hop.2]
        refine ⟨plainSnapshot_dnsUdp, ?_⟩
        intro k l x hl hx
        have hserv := (Add_inspected exampleHost flagsOff (fun _ => some dnsBoth) alwaysOk
          emptyBridge dnsBoth.ID dnsBoth rfl).1
        have hall : ∀ y ∈ ((Add exampleHost flagsOff (fun _ => some dnsBoth) alwaysOk
            emptyBridge dnsBoth.ID).calls.filter Prod.snd).map Prod.fst,
            y.pp.Container.Name.drop 1 ≠ dnsUdp.Name.drop 1 := by
          decide
        simp only [applyOp] at hl
        rw [hserv] at hl
        rcases extendEntry_mem _ _ _ _ _ x hl hx with ⟨l0, hm0, -⟩ | ⟨-, hxa⟩
        · simp [emptyBridge, GoMap.empty] at hm0
        · exact hall x hxa)

/-! ### Runtime failures -/

/-- C14 fails on the code: `Add`, `Remove` and `NewService` end in a runtime panic on
inputs the claim lists.  `Add` of a three-character identifier whose inspection fails panics
at `containerId[:12]`; `NewService` panics at `container.Name[1:]` for an empty container
name, and so does `Add`; `Add` panics at `p[1]` for a port key without `/`; `Remove` of a
three-character identifier panics after its first successful deregistration; and `Add` of a
snapshot with a three-character identifier panics after it stored the first of two
services, so the second candidate is never registered. -/
theorem C14_runtime_panics :
    (Add exampleHost flagsOff (fun _ => none) alwaysOk emptyBridge "abc".toList).panicked
      = true ∧
    NewService exampleHost flagsOff (internalPort unnamedContainer "53".toList "udp".toList)
      false = Except.error Panic.sliceOutOfRange ∧
    (Add exampleHost flagsOff (fun _ => some unnamedContainer) alwaysOk emptyBridge
      unnamedContainer.ID).panicked = true ∧
    candidates flagsOff noSlashContainer = Except.error Panic.indexOutOfRange ∧
    (Add exampleHost flagsOff (fun _ => some noSlashContainer) alwaysOk emptyBridge
      noSlashContainer.ID).panicked = true ∧
    (Remove alwaysOk shortIdBridge "abc".toList).panicked = true ∧
    (Add exampleHost flagsOff (fun _ => some shortIdContainer) alwaysOk emptyBridge
      "abc".toList).panicked = true ∧
    (builtServices exampleHost flagsOff true
      [internalPort shortIdContainer "53".toList "tcp".toList,
       internalPort shortIdContainer "53".toList "udp".toList]).length = 2 ∧
    (Add exampleHost flagsOff (fun _ => some shortIdContainer) alwaysOk emptyBridge
      "abc".toList).calls.length = 1 := by
  refine ⟨by decide, rfl, by decide, rfl, by decide, by decide, by decide, by decide,
    by decide⟩

/-! ### Calls that return normally -/

theorem Split_get_one (sep : Char) (key : Str) (hk : sep ∈ key) :
    ∃ piece, (Split sep key).get? 1 = some piece := by
  obtain ⟨a, b, hab, ha⟩ := split_first sep key hk
  rw [hab, Split_append sep a b ha]
  cases hsp : Split sep b with
  | nil => exact absurd hsp (Split_ne_nil sep b)
  | cons first more => exact ⟨first, rfl⟩

/-- On a port key that contains `/` a step of the candidate loop does not panic, and the
candidates it appends belong to the container. -/
theorem candidateStep_ok (f : Flags) (container : Container) (ports : List PublishedPort)
    (entry : Str × List PortBinding) (hk : '/' ∈ entry.1)
    (hc : ∀ port ∈ ports, port.Container = container) :
    ∃ ports1, candidateStep f container ports entry = Except.ok ports1 ∧
      ∀ port ∈ ports1, port.Container = container := by
  obtain ⟨proto, hproto⟩ := Split_get_one '/' entry.1 hk
  have hmem : ∀ (pp : PublishedPort), pp.Container = container →
      ∀ port ∈ ports ++ [pp], port.Container = container := by
    intro pp hpp port hport
    rcases List.mem_append.mp hport with h1 | h1
    · exact hc port h1
    · rw [List.mem_singleton.mp h1]
      exact hpp
  unfold candidateStep
  simp only
  by_cases h1 : entry.2.length > 0 ∧ f.registerInternalAddress = false
  · rw [if_pos h1]
    cases hpub : entry.2 with
    | nil =>
      rw [hpub] at h1
      simp at h1
    | cons first more =>
      simp only [List.head?_cons, hproto]
      exact ⟨_, rfl, hmem _ rfl⟩
  · rw [if_neg h1]
    by_cases h2 : entry.2.length > 0 ∨ f.registerExposedPorts = false
    · rw [if_pos h2]
      simp only [hproto]
      exact ⟨_, rfl, hmem _ rfl⟩
    · rw [if_neg h2]
      exact ⟨ports, rfl, hc⟩

theorem candidateLoop_ok (f : Flags) (container : Container)
    (entries : List (Str × List PortBinding)) (hk : ∀ e ∈ entries, '/' ∈ e.1) :
    ∀ ports : List PublishedPort, (∀ port ∈ ports, port.Container = container) →
      ∃ ports1, candidateLoop f container entries ports = Except.ok ports1 ∧
        ∀ port ∈ ports1, port.Container = container := by
  induction entries with
  | nil => intro ports hc; exact ⟨ports, rfl, hc⟩
  | cons entry rest ih =>
    intro ports hc
    obtain ⟨ports1, hstep, hc1⟩ := candidateStep_ok f container ports entry
      (hk entry (List.mem_cons_self entry rest)) hc
    unfold candidateLoop
    rw [hstep]
    exact ih (fun e he => hk e (List.mem_cons_of_mem entry he)) ports1 hc1

/-- When every port key of the snapshot contains `/`, building the candidate list does not
panic, and every candidate belongs to the snapshot. -/
theorem candidates_ok (f : Flags) (s : Container)
    (hk : ∀ e ∈ s.NetworkSettings.Ports, '/' ∈ e.1) :
    ∃ ports, candidates f s = Except.ok ports ∧ ∀ port ∈ ports, port.Container = s := by
  unfold candidates
  exact candidateLoop_ok f s s.NetworkSettings.Ports hk [] (by simp)

/-- For a non-empty container name `NewService` does not panic. -/
theorem NewService_no_panic (h : Host) (f : Flags) (port : PublishedPort) (isgroup : Bool)
    (hname : port.Container.Name ≠ []) :
    ∃ o, NewService h f port isgroup = Except.ok o := by
  by_cases hign : mapdefault (serviceMetaData port.Container.Config.Env port.ExposedPort)
      ['i', 'g', 'n', 'o', 'r', 'e'] [] = []
  · obtain ⟨s, hs, -⟩ := NewService_built h f port isgroup hname hign
    exact ⟨some s, hs⟩
  · refine ⟨none, ?_⟩
    unfold NewService
    simp [hign]

/-- For a container identifier of at least 12 characters and candidates of containers with
a non-empty name, the second loop of `Add` does not panic. -/
theorem addLoop_no_panic {ρ : Type} (h : Host) (f : Flags) (R : ServiceRegistry ρ)
    (container : Container) (isgroup : Bool) (hid : 12 ≤ container.ID.length)
    (ports : List PublishedPort) (hname : ∀ port ∈ ports, port.Container.Name ≠ []) :
    ∀ b : RegistryBridge ρ, (addLoop h f R container isgroup ports b).panicked = false := by
  induction ports with
  | nil => intro b; rfl
  | cons port rest ih =>
    intro b
    have hrest : ∀ p ∈ rest, p.Container.Name ≠ [] :=
      fun p hp => hname p (List.mem_cons_of_mem port hp)
    obtain ⟨o, ho⟩ := NewService_no_panic h f port isgroup
      (hname port (List.mem_cons_self port rest))
    unfold addLoop
    rw [ho]
    cases o with
    | none =>
      simp only
      rw [if_neg (by omega)]
      exact ih hrest b
    | some service =>
      simp only
      split_ifs with hreg hlen
      · exact ih hrest _
      · omega
      · exact ih hrest _

/-- `Add` returns normally when the inspected snapshot has port keys that contain `/`, a
non-empty name and an identifier of at least 12 characters. -/
theorem Add_returns {ρ : Type} (h : Host) (f : Flags) (docker : Str → Option Container)
    (R : ServiceRegistry ρ) (b : RegistryBridge ρ) (c : Str) (s : Container)
    (hd : docker c = some s)
    (hkeys : ∀ e ∈ s.NetworkSettings.Ports, '/' ∈ e.1)
    (hname : s.Name ≠ []) (hid : 12 ≤ s.ID.length) :
    ∃ ports, candidates f s = Except.ok ports ∧ (Add h f docker R b c).panicked = false := by
  obtain ⟨ports, hcand, hcont⟩ := candidates_ok f s hkeys
  refine ⟨ports, hcand, ?_⟩
  unfold Add
  rw [hd]
  simp only [hcand]
  by_cases h0 : ports.length = 0
  · rw [if_pos h0]
    simp only [decide_eq_false_iff_not]
    omega
  · rw [if_neg h0]
    apply addLoop_no_panic h f R s _ hid ports
    intro port hport
    rw [hcont port hport]
    exact hname

/-- C11: for an `Add(c)` whose inspection succeeds with snapshot `s`.  When the port keys of
`s` contain `/`, its name is not empty and its identifier has at least 12 characters, the
call returns normally, it issues one retry-wrapped `Register` for every candidate that is
not suppressed, in candidate order, and the map afterwards is the map before with the entry
of `s.ID` extended at its end, in that order, by exactly the services whose `Register`
returned success: a failed registration is not stored and does not keep later candidates
from being registered.  For every snapshot the map afterwards is the map before with the
entry of `s.ID` extended by the services whose registration succeeded, and the entries of
all other containers are unchanged.  When inspection fails or there are no candidates the
bridge state is unchanged and no `Register` call is made. -/
theorem C11_add_state {ρ : Type} (h : Host) (f : Flags) (docker : Str → Option Container)
    (R : ServiceRegistry ρ) (b : RegistryBridge ρ) (c : Str) :
    (∀ s, docker c = some s → (∀ e ∈ s.NetworkSettings.Ports, '/' ∈ e.1) → s.Name ≠ [] →
      12 ≤ s.ID.length →
      ∃ ports, candidates f s = Except.ok ports ∧
        (Add h f docker R b c).panicked = false ∧
        (Add h f docker R b c).calls
          = registerAll R (builtServices h f (decide (ports.length > 1)) ports) b.registry ∧
        (Add h f docker R b c).bridge.services
          = extendEntry b.services s.ID
              (((registerAll R (builtServices h f (decide (ports.length > 1)) ports)
                b.registry).filter Prod.snd).map Prod.fst)) ∧
    (∀ s, docker c = some s →
      (Add h f docker R b c).bridge.services
        = extendEntry b.services s.ID
            (((Add h f docker R b c).calls.filter Prod.snd).map Prod.fst) ∧
      (∀ k, k ≠ s.ID → (Add h f docker R b c).bridge.services k = b.services k)) ∧
    ((docker c = none ∨ ∃ s, docker c = some s ∧ candidates f s = Except.ok []) →
      (Add h f docker R b c).bridge = b ∧ (Add h f docker R b c).calls = []) := by
  refine ⟨?_, ?_, ?_⟩
  · intro s hd hkeys hname hid
    obtain ⟨ports, hcand, hp⟩ := Add_returns h f docker R b c s hd hkeys hname hid
    obtain ⟨hserv, hcalls, -⟩ := Add_inspected h f docker R b c s hd
    have hc := hcalls ports hcand hp
    refine ⟨ports, hcand, hp, hc, ?_⟩
    rw [hserv, hc]
  · intro s hd
    obtain ⟨hserv, -, -⟩ := Add_inspected h f docker R b c s hd
    refine ⟨hserv, ?_⟩
    intro k hk
    rw [hserv]
    exact extendEntry_other b.services s.ID k _ hk
  · intro hcase
    rcases hcase with hnone | ⟨s, hd, hcand⟩
    · unfold Add
      rw [hnone]
      exact ⟨rfl, rfl⟩
    · exact (Add_inspected h f docker R b c s hd).2.2 hcand

/-- Witness for C11: `dnsBoth` added to a bridge that already holds one service for it, with
a registry whose first call fails and whose second succeeds.  Both candidates are
registered, in order; only the second service is stored, after the one held before. -/
theorem C11_add_state_witness :
    (∃ ports, candidates flagsOff dnsBoth = Except.ok ports ∧
      (Add exampleHost flagsOff (fun _ => some dnsBoth) failsOnce preloadedBridge
        dnsBoth.ID).panicked = false ∧
      (Add exampleHost flagsOff (fun _ => some dnsBoth) failsOnce preloadedBridge
        dnsBoth.ID).calls
        = registerAll failsOnce
            (builtServices exampleHost flagsOff (decide (ports.length > 1)) ports)
            preloadedBridge.registry ∧
      (Add exampleHost flagsOff (fun _ => some dnsBoth) failsOnce preloadedBridge
        dnsBoth.ID).bridge.services
        = extendEntry preloadedBridge.services dnsBoth.ID
            (((registerAll failsOnce
                (builtServices exampleHost flagsOff (decide (ports.length > 1)) ports)
                preloadedBridge.registry).filter Prod.snd).map Prod.fst)) ∧
    (Add exampleHost flagsOff (fun _ => some dnsBoth) failsOnce preloadedBridge
      dnsBoth.ID).calls.map (fun call => (call.1.ID, call.2))
      = [("reg-host:dns:53".toList, false), ("reg-host:dns:53:udp".toList, true)] ∧
    (((Add exampleHost flagsOff (fun _ => some dnsBoth) failsOnce preloadedBridge
      dnsBoth.ID).bridge.services dnsBoth.ID).getD []).map Service.ID
      = ["earlier".toList, "reg-host:dns:53:udp".toList] :=
  ⟨(C11_add_state exampleHost flagsOff (fun _ => some dnsBoth) failsOnce preloadedBridge
      dnsBoth.ID).1 dnsBoth rfl (by decide) (by decide) (by decide),
   by decide, by decide⟩

/-! ### Remove on a reachable state -/

/-- For an identifier of at least 12 characters the loop of `Remove` issues exactly the
retry-wrapped deregistrations of the listed services, in order, whatever their outcomes. -/
theorem removeLoop_calls {ρ : Type} (R : ServiceRegistry ρ) (c : Str) (hc : 12 ≤ c.length)
    (services : List Service) :
    ∀ b : RegistryBridge ρ,
      (removeLoop R c services b).calls = deregisterAll R services b.registry := by
  induction services with
  | nil => intro b; rfl
  | cons service rest ih =>
    intro b
    unfold removeLoop
    simp only
    split_ifs with hreg hlen
    · simp only [Run.after, deregisterAll, hreg]
      rw [ih]
    · omega
    · have hreg1 : (R.Deregister b.registry service).2 = true := by simpa using hreg
      simp only [Run.after, deregisterAll, hreg1]
      rw [ih]

/-- An `Add` that returns normally and registers at least one service has sliced
`container.ID[:12]`: the identifier of the snapshot has at least 12 characters. -/
theorem Add_no_panic_length {ρ : Type} (h : Host) (f : Flags) (docker : Str → Option Container)
    (R : ServiceRegistry ρ) (b : RegistryBridge ρ) (c : Str) (s : Container)
    (hd : docker c = some s)
    (hp : (Add h f docker R b c).panicked = false)
    (hne : ((Add h f docker R b c).calls.filter Prod.snd).map Prod.fst ≠ []) :
    12 ≤ s.ID.length := by
  unfold Add at hp hne
  rw [hd] at hp hne
  simp only at hp hne
  cases hcand : candidates f s with
  | error e =>
    rw [hcand] at hp
    simp at hp
  | ok ports =>
    rw [hcand] at hp hne
    simp only at hp hne
    by_cases h0 : ports.length = 0
    · rw [if_pos h0] at hne
      simp at hne
    · rw [if_neg h0] at hp hne
      exact addLoop_no_panic_length h f R s _ ports b hp hne

/-- A call that returns normally keeps every key of the map at 12 characters or more. -/
theorem applyOp_long_keys {ρ : Type} (h : Host) (f : Flags) (R : ServiceRegistry ρ)
    (b : RegistryBridge ρ) (op : Op)
    (hb : ∀ k l, b.services k = some l → 12 ≤ k.length)
    (hp : (applyOp h f R b op).panicked = false) :
    ∀ k l, (applyOp h f R b op).bridge.services k = some l → 12 ≤ k.length := by
  cases op with
  | add c inspected =>
    cases inspected with
    | none =>
      intro k l hl
      exact hb k l hl
    | some s =>
      intro k l hl
      simp only [applyOp] at hp hl
      have hserv := (Add_inspected h f (fun _ => some s) R b c s rfl).1
      by_cases hne : ((Add h f (fun _ => some s) R b c).calls.filter Prod.snd).map Prod.fst = []
      · rw [hserv, hne] at hl
        exact hb k l hl
      · by_cases hk : k = s.ID
        · rw [hk]
          exact Add_no_panic_length h f (fun _ => some s) R b c s rfl hp hne
        · rw [hserv, extendEntry_other b.services s.ID k _ hk] at hl
          exact hb k l hl
  | remove c =>
    intro k l hl
    simp only [applyOp] at hp hl
    rw [Remove_services R b c hp] at hl
    unfold GoMap.delete at hl
    by_cases hk : k = c
    · simp [hk] at hl
    · simp only [hk, if_false] at hl
      exact hb k l hl

/-- After a history of calls that all return normally, started in a state whose keys have at
least 12 characters, every key of the map has at least 12 characters. -/
theorem runOps_long_keys {ρ : Type} (h : Host) (f : Flags) (R : ServiceRegistry ρ)
    (ops : List Op) :
    ∀ b : RegistryBridge ρ,
      (∀ k l, b.services k = some l → 12 ≤ k.length) →
      (∀ e ∈ runOps h f R ops b, e.run.panicked = false) →
      ∀ k l, (finalBridge b (runOps h f R ops b)).services k = some l → 12 ≤ k.length := by
  induction ops with
  | nil => intro b hb _; exact hb
  | cons op rest ih =>
    intro b hb hp
    have hp0 : (applyOp h f R b op).panicked = false :=
      hp { before := b, op := op, run := applyOp h f R b op } (by simp [runOps])
    have hprest : ∀ e ∈ runOps h f R rest (applyOp h f R b op).bridge,
        e.run.panicked = false :=
      fun e he => hp e (by simp [runOps, he])
    simp only [runOps, finalBridge]
    exact ih (applyOp h f R b op).bridge (applyOp_long_keys h f R b op hb hp0) hprest

/-- C10: in every bridge state reached from the empty map by `Add` and `Remove` calls that
return normally, for every identifier `c` and every registry behaviour, `Remove(c)` returns
normally, issues exactly one retry-wrapped `Deregister` for every service recorded for `c`,
in recorded order and whatever the outcomes (a failure does not stop the later ones), and
afterwards `c` has no entry while the entry of every other container is unchanged. -/
theorem C10_remove_deregisters_all {ρ : Type} (h : Host) (f : Flags) (R : ServiceRegistry ρ)
    (ops : List Op) (b0 : RegistryBridge ρ) (c : Str)
    (hb0 : b0.services = GoMap.empty)
    (hp : ∀ e ∈ runOps h f R ops b0, e.run.panicked = false) :
    (Remove R (finalBridge b0 (runOps h f R ops b0)) c).panicked = false ∧
    (Remove R (finalBridge b0 (runOps h f R ops b0)) c).calls
      = deregisterAll R (((finalBridge b0 (runOps h f R ops b0)).services c).getD [])
          (finalBridge b0 (runOps h f R ops b0)).registry ∧
    (Remove R (finalBridge b0 (runOps h f R ops b0)) c).bridge.services c = none ∧
    ∀ k, k ≠ c →
      (Remove R (finalBridge b0 (runOps h f R ops b0)) c).bridge.services k
        = (finalBridge b0 (runOps h f R ops b0)).services k := by
  have hkeys := runOps_long_keys h f R ops b0
    (by intro k l hl; rw [hb0] at hl; simp [GoMap.empty] at hl) hp
  generalize finalBridge b0 (runOps h f R ops b0) = b at hkeys ⊢
  cases hbc : b.services c with
  | none =>
    obtain ⟨hpn, hcalls, -, hs⟩ := Remove_no_services R b c (by rw [hbc]; rfl)
    refine ⟨hpn, ?_, ?_, ?_⟩
    · rw [hcalls]
      rfl
    · rw [hs]
      simp [GoMap.delete]
    · intro k hk
      rw [hs]
      simp [GoMap.delete, hk]
  | some l =>
    have hc : 12 ≤ c.length := hkeys c l hbc
    obtain ⟨hpn, -, hnone, hother⟩ := Remove_long_id R b c hc
    refine ⟨hpn, ?_, hnone, hother⟩
    have hcalls := removeLoop_calls R c hc ((b.services c).getD []) b
    have hloop := (removeLoop_long_id R c hc ((b.services c).getD []) b).1
    rw [hbc] at hcalls hloop
    unfold Remove
    simp only [hbc, hloop, Bool.false_eq_true, if_false]
    exact hcalls

/-- Witness for C10: `dnsBoth` added to a fresh bridge and then removed, with a registry
whose first deregistration fails: both services are deregistered, in recorded order, the
failure of the first does not stop the second, and the entry is gone. -/
theorem C10_remove_deregisters_all_witness :
    ((Remove deregisterFailsOnce
        (finalBridge freshBridge
          (runOps exampleHost flagsOff deregisterFailsOnce [Op.add dnsBoth.ID (some dnsBoth)]
            freshBridge))
        dnsBoth.ID).panicked = false ∧
      (Remove deregisterFailsOnce
        (finalBridge freshBridge
          (runOps exampleHost flagsOff deregisterFailsOnce [Op.add dnsBoth.ID (some dnsBoth)]
            freshBridge))
        dnsBoth.ID).calls
        = deregisterAll deregisterFailsOnce
            (((finalBridge freshBridge
              (runOps exampleHost flagsOff deregisterFailsOnce
                [Op.add dnsBoth.ID (some dnsBoth)] freshBridge)).services dnsBoth.ID).getD [])
            (finalBridge freshBridge
              (runOps exampleHost flagsOff deregisterFailsOnce
                [Op.add dnsBoth.ID (some dnsBoth)] freshBridge)).registry ∧
      (Remove deregisterFailsOnce
        (finalBridge freshBridge
          (runOps exampleHost flagsOff deregisterFailsOnce [Op.add dnsBoth.ID (some dnsBoth)]
            freshBridge))
        dnsBoth.ID).bridge.services dnsBoth.ID = none ∧
      ∀ k, k ≠ dnsBoth.ID →
        (Remove deregisterFailsOnce
          (finalBridge freshBridge
            (runOps exampleHost flagsOff deregisterFailsOnce
              [Op.add dnsBoth.ID (some dnsBoth)] freshBridge))
          dnsBoth.ID).bridge.services k
          = (finalBridge freshBridge
              (runOps exampleHost flagsOff deregisterFailsOnce
                [Op.add dnsBoth.ID (some dnsBoth)] freshBridge)).services k) ∧
    (((finalBridge freshBridge
      (runOps exampleHost flagsOff deregisterFailsOnce [Op.add dnsBoth.ID (some dnsBoth)]
        freshBridge)).services dnsBoth.ID).getD []).map Service.ID
      = ["reg-host:dns:53".toList, "reg-host:dns:53:udp".toList] ∧
    (Remove deregisterFailsOnce
      (finalBridge freshBridge
        (runOps exampleHost flagsOff deregisterFailsOnce [Op.add dnsBoth.ID (some dnsBoth)]
          freshBridge))
      dnsBoth.ID).calls.map (fun call => (call.1.ID, call.2))
      = [("reg-host:dns:53".toList, false), ("reg-host:dns:53:udp".toList, true)] :=
  ⟨C10_remove_deregisters_all exampleHost flagsOff deregisterFailsOnce
      [Op.add dnsBoth.ID (some dnsBoth)] freshBridge dnsBoth.ID rfl (by decide),
   by decide, by decide⟩

end Registrator
